import Mathlib

/-!
Verification of the generator-to-state-machine MIR pass
(`src/librustc_mir/transform/generator.rs`).

This file gives a shallow embedding of the pass: the MIR fragments the pass
manipulates (locals, places, statements, terminators, basic blocks, bodies)
and the pass's own functions (`TransformVisitor`, `locals_live_across_suspend_points`,
`compute_layout`, `insert_switch`, `create_cases`,
`create_generator_resume_function`, `create_generator_drop_shim`, `run_pass`),
translated from the Rust source.  External collaborators of the pass (the
dataflow engine in `crate::dataflow` / `crate::util::liveness`, the drop
elaboration utility in `crate::util::elaborate_drops`, `no_landing_pads`, and
`simplify::remove_dead_blocks`) are not part of the given source tree; where a
function of the pass consumes their results, those results appear as explicit
parameters.
-/

namespace GeneratorTransform

/-- MIR local index (`Local`). -/
abbrev Local := Nat

/-- Basic-block index (`BasicBlock`). -/
abbrev BasicBlockId := Nat

/-- Types, as far as the pass needs to distinguish them.  `gen` stands for the
generator type of the first argument; `ref`, `ptr` and `pin` model
`tcx.mk_ref`, `tcx.mk_ptr` and the `Pin` adt; `var n` stands for any other
type. -/
inductive Ty where
  | unit
  | boolTy
  | isize
  | gen
  | genState
  | ref (t : Ty)
  | ptr (t : Ty)
  | pin (t : Ty)
  | var (n : Nat)
  deriving DecidableEq, Repr

/-- `ProjectionElem`: the projections the pass builds (`Deref`,
`Field(idx, ty)`, `Downcast` produced by `downcast_unnamed`). -/
inductive ProjectionElem where
  | deref
  | field (idx : Nat) (ty : Ty)
  | downcast (variant : Nat)
  deriving DecidableEq, Repr

/-- `Place`: either a local (`Place::Base(PlaceBase::Local(l))`) or a
projection off a base place. -/
inductive Place where
  | base (l : Local)
  | proj (b : Place) (elem : ProjectionElem)
  deriving DecidableEq, Repr

/-- The innermost local of a place. -/
def Place.baseLocal : Place → Local
  | .base l => l
  | .proj b _ => b.baseLocal

/-- Panic messages used by the pass (`InterpError` variants); `other`
covers user-level assert messages already present in the input MIR. -/
inductive AssertMessage where
  | generatorResumedAfterReturn
  | generatorResumedAfterPanic
  | other (n : Nat)
  deriving DecidableEq, Repr

/-- `Operand`. -/
inductive Operand where
  | copy (p : Place)
  | move (p : Place)
  | constBool (b : Bool)
  | constInt (n : Nat)
  deriving DecidableEq, Repr

/-- `Rvalue`: the shapes the pass reads or creates (`Rvalue::Aggregate` for
`GeneratorState`, `Rvalue::Discriminant`, references, plain uses). -/
inductive Rvalue where
  | use (op : Operand)
  | aggregate (variant : Nat) (ops : List Operand)
  | discriminant (p : Place)
  | ref (p : Place)
  deriving DecidableEq, Repr

/-- `StatementKind`. -/
inductive StatementKind where
  | assign (p : Place) (r : Rvalue)
  | storageLive (l : Local)
  | storageDead (l : Local)
  | setDiscriminant (p : Place) (variantIndex : Nat)
  | nop
  deriving DecidableEq, Repr

/-- `TerminatorKind`.  `ret` is `TerminatorKind::Return`, `resume` the unwind
propagation terminator `TerminatorKind::Resume`. -/
inductive TerminatorKind where
  | ret
  | yield (value : Operand) (resume : BasicBlockId) (drop : Option BasicBlockId)
  | goto (target : BasicBlockId)
  | switchInt (discr : Operand) (switchTy : Ty) (values : List Nat)
      (targets : List BasicBlockId)
  | resume
  | generatorDrop
  | drop (location : Place) (target : BasicBlockId) (unwind : Option BasicBlockId)
  | assert (cond : Operand) (expected : Bool) (msg : AssertMessage)
      (target : BasicBlockId) (cleanup : Option BasicBlockId)
  | unreachable
  deriving DecidableEq, Repr

/-- `BasicBlockData` (source spans are irrelevant to the pass's logic and are
omitted). -/
structure BasicBlockData where
  statements : List StatementKind
  terminator : TerminatorKind
  is_cleanup : Bool
  deriving DecidableEq, Repr

/-- `LocalDecl`, reduced to the fields the pass reads: the type and the
`internal` flag. -/
structure LocalDecl where
  ty : Ty
  internal : Bool
  deriving DecidableEq, Repr

instance : Inhabited LocalDecl := ⟨⟨Ty.unit, false⟩⟩

/-- `Mir`: local declarations, basic blocks and the `generator_drop`
satellite body (`Option<Box<Mir>>`). -/
inductive Mir where
  | mk (local_decls : List LocalDecl) (basic_blocks : List BasicBlockData)
      (generator_drop : Option Mir)

def Mir.local_decls : Mir → List LocalDecl
  | .mk d _ _ => d

def Mir.basic_blocks : Mir → List BasicBlockData
  | .mk _ b _ => b

def Mir.generator_drop : Mir → Option Mir
  | .mk _ _ g => g

def Mir.setBlocks : Mir → List BasicBlockData → Mir
  | .mk d _ g, b => .mk d b g

def Mir.setDecls : Mir → List LocalDecl → Mir
  | .mk _ b g, d => .mk d b g

def Mir.setGenDrop : Mir → Option Mir → Mir
  | .mk d b _, g => .mk d b g

/-- Type of a local (`mir.local_decls[l].ty`). -/
def Mir.localTy (m : Mir) (l : Local) : Ty :=
  (m.local_decls.getD l default).ty

/-- `fn self_arg() -> Local { Local::new(1) }` -/
def self_arg : Local := 1

/-- `RETURN_PLACE` is local 0. -/
def RETURN_PLACE : Local := 0

/-- Generator has not been resumed yet. -/
def UNRESUMED : Nat := 0

/-- Generator has returned / is completed. -/
def RETURNED : Nat := 1

/-- Generator has been poisoned. -/
def POISONED : Nat := 2

/-- `SuspensionPoint`. -/
structure SuspensionPoint where
  state : Nat
  resume : BasicBlockId
  drop : Option BasicBlockId
  storage_liveness : Finset Local
  deriving DecidableEq

/-- The remap table `FxHashMap<Local, (Ty, VariantIdx, usize)>`, as an
association list in insertion order. -/
abbrev RemapTable := List (Local × (Ty × Nat × Nat))

/-- `TransformVisitor` (the `tcx`, adt-ref and substs fields are compiler
context consumed only to build the `GeneratorState` aggregate and are
omitted). -/
structure TransformVisitor where
  discr_ty : Ty
  remap : RemapTable
  storage_liveness : List (BasicBlockId × Finset Local)
  suspension_points : List SuspensionPoint
  new_ret_local : Local

/-- `make_state`: the `GeneratorState` rvalue
`Rvalue::Aggregate(Adt(state_adt_ref, idx, ..), vec![val])`. -/
def make_state (idx : Nat) (val : Operand) : Rvalue :=
  .aggregate idx [val]

/-- `make_field`: a place referencing generator struct field `idx` of
variant `variant_index` (`self.downcast_unnamed(variant_index).field(idx)`). -/
def make_field (variant_index : Nat) (idx : Nat) (ty : Ty) : Place :=
  .proj (.proj (.base self_arg) (.downcast variant_index)) (.field idx ty)

/-- `set_discr`: statement changing the discriminant of the generator. -/
def set_discr (state_disc : Nat) : StatementKind :=
  .setDiscriminant (.base self_arg) state_disc

/-- `get_discr`: push an internal `isize` temporary and return the statement
reading the discriminant into it together with the temporary's place. -/
def get_discr (mir : Mir) : Mir × StatementKind × Place :=
  let temp : Local := mir.local_decls.length
  let mir := mir.setDecls (mir.local_decls ++ [⟨Ty.isize, true⟩])
  (mir, .assign (.base temp) (.discriminant (.base self_arg)), .base temp)

/-! ## Place visitors

The Rust side uses `MutVisitor` implementations (`TransformVisitor`,
`DerefArgVisitor`, `PinArgVisitor`, `RenameLocalVisitor`).  Each rewrites
every place occurrence in statements and terminators with a recursive rule;
here the rule is a function `Place → Place` mapped over all occurrences. -/

/-- `TransformVisitor::visit_place`: a local in the remap table becomes a
generator struct field access; otherwise recurse into the base
(`super_place`). -/
def rewritePlace (remap : RemapTable) : Place → Place
  | .base l =>
    match remap.lookup l with
    | some (ty, variant_index, idx) => make_field variant_index idx ty
    | none => .base l
  | .proj b e => .proj (rewritePlace remap b) e

/-- `TransformVisitor::visit_local`: `assert_eq!(self.remap.get(local), None)`.
Returns whether the assertion holds; `false` is the compiler-internal
hard failure. -/
def visit_local_assert (remap : RemapTable) (l : Local) : Bool :=
  (remap.lookup l).isNone

/-- `DerefArgVisitor::visit_place`: the generator argument is accessed through
a deref. -/
def derefPlace : Place → Place
  | .base l => if l = self_arg then .proj (.base l) .deref else .base l
  | .proj b e => .proj (derefPlace b) e

/-- `PinArgVisitor::visit_place`: the generator argument is accessed through
the `Pin` field (field zero of type `ref_gen_ty`). -/
def pinPlace (ref_gen_ty : Ty) : Place → Place
  | .base l => if l = self_arg then .proj (.base l) (.field 0 ref_gen_ty) else .base l
  | .proj b e => .proj (pinPlace ref_gen_ty b) e

def Place.mapLocal (f : Local → Local) : Place → Place
  | .base l => .base (f l)
  | .proj b e => .proj (b.mapLocal f) e

def Operand.mapPlace (f : Place → Place) : Operand → Operand
  | .copy p => .copy (f p)
  | .move p => .move (f p)
  | .constBool b => .constBool b
  | .constInt n => .constInt n

def Rvalue.mapPlace (f : Place → Place) : Rvalue → Rvalue
  | .use op => .use (op.mapPlace f)
  | .aggregate v ops => .aggregate v (ops.map (Operand.mapPlace f))
  | .discriminant p => .discriminant (f p)
  | .ref p => .ref (f p)

/-- Map a place rule over one statement.  `StorageLive`/`StorageDead` hold a
bare `Local`, visited through `visit_local`, not `visit_place`. -/
def StatementKind.mapPlace (f : Place → Place) : StatementKind → StatementKind
  | .assign p r => .assign (f p) (r.mapPlace f)
  | .setDiscriminant p v => .setDiscriminant (f p) v
  | s => s

def TerminatorKind.mapPlace (f : Place → Place) : TerminatorKind → TerminatorKind
  | .yield v r d => .yield (v.mapPlace f) r d
  | .switchInt d ty vs ts => .switchInt (d.mapPlace f) ty vs ts
  | .drop loc t u => .drop (f loc) t u
  | .assert c e m t cl => .assert (c.mapPlace f) e m t cl
  | t => t

def BasicBlockData.mapPlace (f : Place → Place) (d : BasicBlockData) : BasicBlockData :=
  ⟨d.statements.map (StatementKind.mapPlace f), d.terminator.mapPlace f, d.is_cleanup⟩

/-- Map a place rule over the whole body (`visit_mir` of a place-rewriting
`MutVisitor`). -/
def mapMirPlaces (f : Place → Place) (mir : Mir) : Mir :=
  mir.setBlocks (mir.basic_blocks.map (BasicBlockData.mapPlace f))

/-- `RenameLocalVisitor`: rename every occurrence of a local (places and
storage statements both go through `visit_local`). -/
def StatementKind.mapLocal (f : Local → Local) : StatementKind → StatementKind
  | .assign p r => .assign (p.mapLocal f) (r.mapPlace (Place.mapLocal f))
  | .storageLive l => .storageLive (f l)
  | .storageDead l => .storageDead (f l)
  | .setDiscriminant p v => .setDiscriminant (p.mapLocal f) v
  | .nop => .nop

def TerminatorKind.mapLocal (f : Local → Local) : TerminatorKind → TerminatorKind :=
  TerminatorKind.mapPlace (Place.mapLocal f)

def mapMirLocals (f : Local → Local) (mir : Mir) : Mir :=
  mir.setBlocks (mir.basic_blocks.map fun d =>
    ⟨d.statements.map (StatementKind.mapLocal f), d.terminator.mapLocal f, d.is_cleanup⟩)

/-- `successors_mut`: every block-id reference in a terminator. -/
def TerminatorKind.mapSuccessors (f : BasicBlockId → BasicBlockId) :
    TerminatorKind → TerminatorKind
  | .yield v r d => .yield v (f r) (d.map f)
  | .goto t => .goto (f t)
  | .switchInt d ty vs ts => .switchInt d ty vs (ts.map f)
  | .drop loc t u => .drop loc (f t) (u.map f)
  | .assert c e m t cl => .assert c e m (f t) (cl.map f)
  | t => t

/-! ## The body rewrite (`TransformVisitor::visit_basic_block_data`) -/

/-- `self.storage_liveness.get(&block).unwrap()`: the pass only looks up
blocks it stored a snapshot for, so the default is never reached when the
map was built by `locals_live_across_suspend_points`. -/
def lookupSL (m : List (BasicBlockId × Finset Local)) (b : BasicBlockId) : Finset Local :=
  (m.lookup b).getD ∅

/-- `super_basic_block_data`: visit the statements and the terminator of a
block with the remap place rule. -/
def superBlockData (remap : RemapTable) (d : BasicBlockData) : BasicBlockData :=
  d.mapPlace (rewritePlace remap)

/-- The `retain_statements` step of `visit_basic_block_data`: delete
`StorageLive`/`StorageDead` statements for remapped locals. -/
def retainNonRemappedStorage (remap : RemapTable) (stmts : List StatementKind) :
    List StatementKind :=
  stmts.filter fun s =>
    match s with
    | .storageLive l => (remap.lookup l).isNone
    | .storageDead l => (remap.lookup l).isNone
    | _ => true

/-- `TransformVisitor::visit_basic_block_data`: delete storage markers of
remapped locals, rewrite `Return` and `Yield` terminators into
«assign result; set discriminant; return», record suspension points, then
run the super visit (place rewriting) over the updated block. -/
def transformBlockData (tv : TransformVisitor) (block : BasicBlockId)
    (data : BasicBlockData) : TransformVisitor × BasicBlockData :=
  let stmts := retainNonRemappedStorage tv.remap data.statements
  let ret_val : Option (Nat × Option BasicBlockId × Operand × Option BasicBlockId) :=
    match data.terminator with
    | .ret => some (1, none, .move (.base tv.new_ret_local), none)
    | .yield value resume drop => some (0, some resume, value, drop)
    | _ => none
  match ret_val with
  | some (state_idx, resumeOpt, v, drop) =>
    let upd : TransformVisitor × Nat :=
      match resumeOpt with
      | some resume =>
        let state := 3 + tv.suspension_points.length
        ({ tv with suspension_points := tv.suspension_points ++
            [⟨state, resume, drop, lookupSL tv.storage_liveness block⟩] }, state)
      | none => (tv, RETURNED)
    let stmts := stmts ++
      [.assign (.base RETURN_PLACE) (make_state state_idx v), set_discr upd.2]
    (upd.1, superBlockData tv.remap ⟨stmts, .ret, data.is_cleanup⟩)
  | none => (tv, superBlockData tv.remap ⟨stmts, data.terminator, data.is_cleanup⟩)

/-- The traversal of `visit_mir` over the block list, in block order,
threading the visitor state. -/
def transformBlocks (tv : TransformVisitor) (i : BasicBlockId) :
    List BasicBlockData → TransformVisitor × List BasicBlockData
  | [] => (tv, [])
  | d :: rest =>
    let p := transformBlockData tv i d
    let q := transformBlocks p.1 (i + 1) rest
    (q.1, p.2 :: q.2)

/-- `transform.visit_mir(mir)`. -/
def transformMir (tv : TransformVisitor) (mir : Mir) : TransformVisitor × Mir :=
  let p := transformBlocks tv 0 mir.basic_blocks
  (p.1, mir.setBlocks p.2)

/-! ## Liveness (`locals_live_across_suspend_points`)

The monotone dataflow analyses themselves (`MaybeStorageLive`,
`HaveBeenBorrowedLocals` from `crate::dataflow`, and
`liveness::liveness_of_locals` from `crate::util::liveness`) are external to
the given source; their results at each suspend terminator's location enter
as the fields of `DataflowResults`. -/

/-- Modelled from the spec: results of the external dataflow engine at a
block's suspend terminator.  `storageLiveAt b` is
`state_for_location(loc, storage_live_analysis, ..)`, `borrowedAt b` is the
`HaveBeenBorrowedLocals` state there, `livenessOuts b` is
`liveness.outs[block]` of the backward may-live analysis. -/
structure DataflowResults where
  storageLiveAt : BasicBlockId → Finset Local
  borrowedAt : BasicBlockId → Finset Local
  livenessOuts : BasicBlockId → Finset Local

/-- `StorageIgnored`: drop from the full local set every local mentioned in a
`StorageLive`/`StorageDead` statement. -/
def removeStorageStmts (s : Finset Local) : List StatementKind → Finset Local
  | [] => s
  | .storageLive l :: rest => removeStorageStmts (s.erase l) rest
  | .storageDead l :: rest => removeStorageStmts (s.erase l) rest
  | _ :: rest => removeStorageStmts s rest

/-- The locals whose storage is always live: those with no storage statements
(`StorageIgnored` over the whole body, starting from
`BitSet::new_filled(local_decls.len())`). -/
def storageIgnored (mir : Mir) : Finset Local :=
  mir.basic_blocks.foldl (fun s d => removeStorageStmts s d.statements)
    (Finset.range mir.local_decls.length)

/-- The per-block loop of `locals_live_across_suspend_points`: at each
`Yield` terminator, record the storage snapshot, union the borrow results
into the liveness-out set for immovable generators, intersect with storage
liveness extended by the always-live locals, and accumulate. -/
def llaspAux (df : DataflowResults) (movable : Bool) (ignored : Finset Local) :
    BasicBlockId → Finset Local → List (BasicBlockId × Finset Local) →
    Finset BasicBlockId → List BasicBlockData →
    Finset Local × List (BasicBlockId × Finset Local) × Finset BasicBlockId
  | _, set, map, susp, [] => (set, map, susp)
  | i, set, map, susp, d :: rest =>
    match d.terminator with
    | .yield _ _ _ =>
      let liveOut :=
        if movable then df.livenessOuts i else df.livenessOuts i ∪ df.borrowedAt i
      let storage_liveness := df.storageLiveAt i
      let map := map ++ [(i, storage_liveness)]
      let live_locals := (storage_liveness ∪ ignored) ∩ liveOut
      llaspAux df movable ignored (i + 1) (set ∪ live_locals) map (insert i susp) rest
    | _ => llaspAux df movable ignored (i + 1) set map susp rest

/-- `locals_live_across_suspend_points`: cross-suspend live locals, the
per-suspend-point storage snapshots, and the set of suspending blocks.  The
generator argument is removed at the end. -/
def locals_live_across_suspend_points (mir : Mir) (df : DataflowResults)
    (movable : Bool) :
    Finset Local × List (BasicBlockId × Finset Local) × Finset BasicBlockId :=
  let ignored := storageIgnored mir
  let r := llaspAux df movable ignored 0 ∅ [] ∅ mir.basic_blocks
  (r.1.erase self_arg, r.2.1, r.2.2)

/-! ## Layout (`compute_layout`) -/

/-- `GeneratorLayout`: field types and, per variant, the fields it uses. -/
structure GeneratorLayout where
  field_tys : List Ty
  variant_fields : List (List Nat)
  deriving DecidableEq

/-- The sanity-check loop of `compute_layout`: a local that is live across a
suspension point and not internal must have a type known to typeck
(`allowed`, the erased `GeneratorWitness` types) or be an upvar type;
otherwise `span_bug!`.  Returns `false` on the bug. -/
def typeSanityOk (live : Finset Local) (allowed allowed_upvars : List Ty) :
    Nat → List LocalDecl → Bool
  | _, [] => true
  | l, decl :: rest =>
    if ¬l ∈ live ∨ decl.internal then
      typeSanityOk live allowed allowed_upvars (l + 1) rest
    else if ¬decl.ty ∈ allowed ∧ ¬decl.ty ∈ allowed_upvars then
      false
    else
      typeSanityOk live allowed allowed_upvars (l + 1) rest

/-- `compute_layout`.  Region erasure on the typeck-provided type sets is the
identity here, so `allowed` and `upvars` enter directly.  Live locals'
declarations are replaced by an internal unit dummy (`mem::replace`), each
live local is assigned a slot in variant 3, and every suspend-point variant
uses the full field set.  Returns `none` on the `span_bug!`. -/
def compute_layout (upvars : List Ty) (allowed : List Ty) (movable : Bool)
    (df : DataflowResults) (mir : Mir) :
    Option ((RemapTable × GeneratorLayout × List (BasicBlockId × Finset Local)) × Mir) :=
  let r := locals_live_across_suspend_points mir df movable
  let live_locals := r.1
  let storage_liveness := r.2.1
  let suspending_blocks := r.2.2
  if typeSanityOk live_locals allowed upvars 0 mir.local_decls then
    let dummy : LocalDecl := ⟨Ty.unit, true⟩
    let live_decls := (live_locals.sort (· ≤ ·)).map fun l =>
      (l, mir.local_decls.getD l dummy)
    let newDecls := (List.range mir.local_decls.length).map fun l =>
      if l ∈ live_locals then dummy else mir.local_decls.getD l dummy
    let variant_index : Nat := 3
    let remap : RemapTable := live_decls.enum.map fun p =>
      (p.2.1, (p.2.2.ty, variant_index, p.1))
    let field_tys := live_decls.map fun p => p.2.ty
    let all_vars := List.range field_tys.length
    let layout : GeneratorLayout :=
      ⟨field_tys, List.replicate 3 [] ++ List.replicate suspending_blocks.card all_vars⟩
    some ((remap, layout, storage_liveness), mir.setDecls newDecls)
  else
    none

/-! ## Argument adapters and result renaming -/

/-- `make_generator_state_argument_indirect`: the generator argument becomes
`&mut gen_ty` and every access gains a deref. -/
def make_generator_state_argument_indirect (mir : Mir) : Mir :=
  let gen_ty := mir.localTy self_arg
  let ref_gen_ty := Ty.ref gen_ty
  let decl := mir.local_decls.getD self_arg default
  let mir := mir.setDecls (mir.local_decls.set self_arg { decl with ty := ref_gen_ty })
  mapMirPlaces derefPlace mir

/-- `make_generator_state_argument_pinned`: the by-ref argument becomes
`Pin<&mut gen_ty>` and every access gains the pin field projection. -/
def make_generator_state_argument_pinned (mir : Mir) : Mir :=
  let ref_gen_ty := mir.localTy self_arg
  let decl := mir.local_decls.getD self_arg default
  let mir := mir.setDecls (mir.local_decls.set self_arg { decl with ty := .pin ref_gen_ty })
  mapMirPlaces (pinPlace ref_gen_ty) mir

/-- `replace_result_variable`: push a fresh declaration of the new return
type, swap it with `RETURN_PLACE`, and rename all uses of `RETURN_PLACE` to
the new local. -/
def replace_result_variable (ret_ty : Ty) (mir : Mir) : Mir × Local :=
  let new_ret : LocalDecl := ⟨ret_ty, false⟩
  let new_ret_local := mir.local_decls.length
  let decls := mir.local_decls ++ [new_ret]
  let decls := (decls.set RETURN_PLACE (decls.getD new_ret_local default)).set
    new_ret_local (decls.getD RETURN_PLACE default)
  let mir := mir.setDecls decls
  (mapMirLocals (fun l => if l = RETURN_PLACE then new_ret_local else l) mir,
   new_ret_local)

/-! ## Switch and shim construction -/

/-- `insert_term_block`: append a fresh statement-less block with the given
terminator; return its id. -/
def insert_term_block (mir : Mir) (kind : TerminatorKind) : Mir × BasicBlockId :=
  let term_block := mir.basic_blocks.length
  (mir.setBlocks (mir.basic_blocks ++ [⟨[], kind, false⟩]), term_block)

/-- `insert_panic_block`: append a block whose `Assert` has a constant-false
condition with `expected: true` (an unconditional panic carrying `message`);
its fall-through target is its own id and is never taken. -/
def insert_panic_block (mir : Mir) (message : AssertMessage) : Mir × BasicBlockId :=
  let assert_block := mir.basic_blocks.length
  let term : TerminatorKind :=
    .assert (.constBool false) true message assert_block none
  (mir.setBlocks (mir.basic_blocks ++ [⟨[], term, false⟩]), assert_block)

/-- The `StorageLive` statements materialized by `create_cases` for one
suspension point: one marker for each local (in local order) whose storage
was live at the point and which is not remapped into the generator struct. -/
def caseStmts (dlen : Nat) (remap : RemapTable) (point : SuspensionPoint) :
    List StatementKind :=
  (List.range dlen).filterMap fun i =>
    if i ∈ point.storage_liveness ∧ (remap.lookup i).isNone then
      some (.storageLive i)
    else none

/-- The loop of `create_cases`: for each suspension point with a target,
append a block re-establishing storage liveness and jumping to the target,
and emit the `(state, block)` case. -/
def createCasesAux (dlen : Nat) (remap : RemapTable)
    (target : SuspensionPoint → Option BasicBlockId) :
    List BasicBlockData → List SuspensionPoint →
    List BasicBlockData × List (Nat × BasicBlockId)
  | blocks, [] => (blocks, [])
  | blocks, point :: rest =>
    match target point with
    | none => createCasesAux dlen remap target blocks rest
    | some t =>
      let block := blocks.length
      let blocks := blocks ++ [⟨caseStmts dlen remap point, .goto t, false⟩]
      let r := createCasesAux dlen remap target blocks rest
      (r.1, (point.state, block) :: r.2)

/-- `create_cases`. -/
def create_cases (mir : Mir) (transform : TransformVisitor)
    (target : SuspensionPoint → Option BasicBlockId) :
    Mir × List (Nat × BasicBlockId) :=
  let r := createCasesAux mir.local_decls.length transform.remap target
    mir.basic_blocks transform.suspension_points
  (mir.setBlocks r.1, r.2)

/-- The successor renumbering of `insert_switch`: every target reference in a
block's terminator is shifted by one. -/
def shiftBlock (b : BasicBlockData) : BasicBlockData :=
  { b with terminator := b.terminator.mapSuccessors (· + 1) }

/-- `insert_switch`: append the default block, read the discriminant into a
fresh temporary, prepend the switch block, and shift every successor
reference (of every block, the new one included) by one. -/
def insert_switch (mir : Mir) (cases : List (Nat × BasicBlockId))
    (transform : TransformVisitor) (default : TerminatorKind) : Mir :=
  let p := insert_term_block mir default
  let mir := p.1
  let default_block := p.2
  let q := get_discr mir
  let mir := q.1
  let assign := q.2.1
  let discr := q.2.2
  let switch : TerminatorKind := .switchInt (.move discr) transform.discr_ty
    (cases.map Prod.fst) (cases.map Prod.snd ++ [default_block])
  let blocks := ⟨[assign], switch, false⟩ :: mir.basic_blocks
  let blocks := blocks.map shiftBlock
  mir.setBlocks blocks

/-- One block of the poison loop of `create_generator_resume_function`: a
block that propagates an unwind (`TerminatorKind::Resume`) first sets the
discriminant to `POISONED`. -/
def poisonBlock (b : BasicBlockData) : BasicBlockData :=
  match b.terminator with
  | .resume => { b with statements := b.statements ++ [set_discr POISONED] }
  | _ => b

/-- The poison loop of `create_generator_resume_function`. -/
def poisonUnwinds (mir : Mir) : Mir :=
  mir.setBlocks (mir.basic_blocks.map poisonBlock)

/-- The first stages of `create_generator_resume_function`, up to and
including the switch insertion: poison on unwind, build the dispatch cases
(state 0 to the original entry, state 1 and 2 to the two generated panics,
state `3+i` to suspension point `i`'s resume target), insert the switch with
an `Unreachable` default. -/
def resumeSwitchStage (transform : TransformVisitor) (mir : Mir) : Mir :=
  let mir := poisonUnwinds mir
  let p := create_cases mir transform (fun point => some point.resume)
  let mir := p.1
  let cases := p.2
  let q1 := insert_panic_block mir .generatorResumedAfterReturn
  let q2 := insert_panic_block q1.1 .generatorResumedAfterPanic
  let mir := q2.1
  let cases := (UNRESUMED, 0) :: (RETURNED, q1.2) :: (POISONED, q2.2) :: cases
  insert_switch mir cases transform .unreachable

/-- `create_generator_resume_function`: the switch stage above followed by
the `&mut Self` and `Pin<&mut Self>` argument adapters.  The trailing
`no_landing_pads` and `simplify::remove_dead_blocks` cleanups are external
utilities and are not part of this source. -/
def create_generator_resume_function (transform : TransformVisitor) (mir : Mir) :
    Mir :=
  make_generator_state_argument_pinned
    (make_generator_state_argument_indirect (resumeSwitchStage transform mir))

/-- The by-ref generator type carried by the pin projection in the finished
resume procedure. -/
def resumePinTy (transform : TransformVisitor) (mir : Mir) : Ty :=
  (make_generator_state_argument_indirect
    (resumeSwitchStage transform mir)).localTy self_arg

/-- `insert_clean_drop`: append a plain-return block and a block dropping the
whole generator argument (upvars only, for the `UNRESUMED` state); return the
drop block's id. -/
def insert_clean_drop (mir : Mir) : Mir × BasicBlockId :=
  let p := insert_term_block mir .ret
  let mir := p.1
  let return_block := p.2
  let drop_clean := mir.basic_blocks.length
  let term : TerminatorKind := .drop (.base self_arg) return_block none
  (mir.setBlocks (mir.basic_blocks ++ [⟨[], term, false⟩]), drop_clean)

/-- `create_generator_drop_shim`: clone the body (`mir.clone()` — value copy
here), build the destroy dispatch from the suspension points' drop targets
plus the `UNRESUMED` clean-drop case (returned and poisoned states fall
through to the `Return` default), rewrite `GeneratorDrop` terminators to
`Return`, reset the return slot to unit, take the argument indirect and then
as `*mut`.  The retag statement is only emitted under a debugging flag and the
trailing `no_landing_pads`/`remove_dead_blocks` cleanups are external. -/
def create_generator_drop_shim (transform : TransformVisitor) (gen_ty : Ty)
    (mir : Mir) (drop_clean : BasicBlockId) : Mir :=
  let mir := mir
  let p := create_cases mir transform (fun point => point.drop)
  let cases := (UNRESUMED, drop_clean) :: p.2
  let mir := insert_switch p.1 cases transform .ret
  let mir := mir.setBlocks (mir.basic_blocks.map fun b =>
    match b.terminator with
    | .generatorDrop => { b with terminator := .ret }
    | _ => b)
  let mir := mir.setDecls (mir.local_decls.set RETURN_PLACE ⟨Ty.unit, false⟩)
  let mir := make_generator_state_argument_indirect mir
  mir.setDecls (mir.local_decls.set self_arg ⟨Ty.ptr gen_ty, false⟩)

/-- `StateTransform::run_pass`, for a generator body (the early return for
non-generators, which have no yield type, is the `none` guard on
`generator_drop` plus the bug paths).  The typeck-provided data (`upvars`,
the witness type set `allowed`, movability, the discriminant type, the
`GeneratorState` return type) enter as parameters, as do the external
dataflow results and the external destructor-elaboration utility
(`elaborate_generator_drops` calls `elaborate_drop` of
`crate::util::elaborate_drops`, which is outside this source). -/
def run_pass (df : DataflowResults) (upvars allowed : List Ty) (movable : Bool)
    (ret_ty discr_ty : Ty) (elabDrops : Mir → Mir) (mir : Mir) : Option Mir :=
  if mir.generator_drop.isSome then none
  else
    let gen_ty := mir.localTy self_arg
    let p := replace_result_variable ret_ty mir
    let mir := p.1
    let new_ret_local := p.2
    match compute_layout upvars allowed movable df mir with
    | none => none
    | some ((remap, _layout, storage_liveness), mir) =>
      let tv : TransformVisitor :=
        ⟨discr_ty, remap, storage_liveness, [], new_ret_local⟩
      let q := transformMir tv mir
      let transform := q.1
      let mir := q.2
      let r := insert_clean_drop mir
      let mir := elabDrops r.1
      let drop_clean := r.2
      let drop_shim := create_generator_drop_shim transform gen_ty mir drop_clean
      let mir := mir.setGenDrop (some drop_shim)
      some (create_generator_resume_function transform mir)

/-! ## Observations on the input CFG -/

def TerminatorKind.isYield : TerminatorKind → Bool
  | .yield _ _ _ => true
  | _ => false

def TerminatorKind.isAssert : TerminatorKind → Bool
  | .assert _ _ _ _ _ => true
  | _ => false

/-- Number of suspend terminators in a block list. -/
def yieldCount : List BasicBlockData → Nat
  | [] => 0
  | d :: rest => (if d.terminator.isYield then 1 else 0) + yieldCount rest

/-- The `(resume, drop)` targets of the suspend terminators, in block order. -/
def yieldTargets : List BasicBlockData → List (BasicBlockId × Option BasicBlockId)
  | [] => []
  | d :: rest =>
    match d.terminator with
    | .yield _ r dr => (r, dr) :: yieldTargets rest
    | _ => yieldTargets rest

/-- Block ids of suspend terminators, counting from `i`. -/
def yieldBlockIdsFrom (i : BasicBlockId) : List BasicBlockData → List BasicBlockId
  | [] => []
  | d :: rest =>
    match d.terminator with
    | .yield _ _ _ => i :: yieldBlockIdsFrom (i + 1) rest
    | _ => yieldBlockIdsFrom (i + 1) rest

/-! ## Specification-level descriptions of the constructed artifacts

These closed forms are what the loops of `create_cases` compute; the lemmas
below prove the implementation equal to them. -/

/-- The suspension points kept by `create_cases` (those whose `target` is
present), paired with their targets. -/
def filteredPoints (target : SuspensionPoint → Option BasicBlockId)
    (pts : List SuspensionPoint) : List (SuspensionPoint × BasicBlockId) :=
  pts.filterMap fun p => (target p).map fun t => (p, t)

/-- The block `create_cases` appends for one kept suspension point. -/
def mkCaseBlock (dlen : Nat) (remap : RemapTable)
    (pt : SuspensionPoint × BasicBlockId) : BasicBlockData :=
  ⟨caseStmts dlen remap pt.1, .goto pt.2, false⟩

/-- The `(state, block)` case list produced by `create_cases`, with case
blocks numbered consecutively from `base`. -/
def casesSpec (base : Nat) : List (SuspensionPoint × BasicBlockId) →
    List (Nat × BasicBlockId)
  | [] => []
  | pt :: rest => (pt.1.state, base) :: casesSpec (base + 1) rest

/-- The image of one original body block in the finished resume procedure:
poisoned if it unwinds, successors shifted by the switch insertion, places
rewritten by the deref and pin adapters (`rt` is the by-ref generator type
the pin field carries). -/
def resumeBodyImage (rt : Ty) (b : BasicBlockData) : BasicBlockData :=
  ((shiftBlock (poisonBlock b)).mapPlace derefPlace).mapPlace (pinPlace rt)

/-! ## Concrete bodies used to instantiate the theorems -/

/-- A transform visitor with no remapped locals and no suspension points. -/
def tvEx : TransformVisitor := ⟨Ty.isize, [], [], [], 0⟩

/-- A two-block body: a suspend terminator, then a return. -/
def mirEx : Mir := .mk [⟨Ty.genState, false⟩, ⟨Ty.gen, false⟩]
  [⟨[], .yield (.constInt 7) 1 none, false⟩, ⟨[], .ret, false⟩] none

/-- A single-block body with no suspend terminator. -/
def mirRet : Mir := .mk [⟨Ty.genState, false⟩, ⟨Ty.gen, false⟩]
  [⟨[], .ret, false⟩] none

/-- A body containing an unwind-propagation block. -/
def mirUnwind : Mir := .mk [⟨Ty.genState, false⟩, ⟨Ty.gen, false⟩]
  [⟨[], .ret, false⟩, ⟨[], .resume, true⟩] none

/-- A visitor with one remapped local (local 2 stored in variant 3, field 0)
and one suspension point whose storage snapshot holds locals 2 and 3. -/
def tvRemapEx : TransformVisitor :=
  ⟨Ty.isize, [(2, (Ty.var 5, 3, 0))], [(0, {2, 3})],
   [⟨3, 1, some 1, {2, 3}⟩], 0⟩

/-- A body with four local declarations and a suspend terminator that has a
destroy target. -/
def mirWide : Mir := .mk
  [⟨Ty.genState, false⟩, ⟨Ty.gen, false⟩, ⟨Ty.var 5, false⟩, ⟨Ty.var 6, false⟩]
  [⟨[], .yield (.constInt 7) 1 (some 1), false⟩, ⟨[], .ret, false⟩] none

/-! ## Lemmas about the body rewrite -/

@[simp]
theorem Mir.basic_blocks_setBlocks (m : Mir) (b : List BasicBlockData) :
    (m.setBlocks b).basic_blocks = b := by cases m; rfl

@[simp]
theorem Mir.local_decls_setBlocks (m : Mir) (b : List BasicBlockData) :
    (m.setBlocks b).local_decls = m.local_decls := by cases m; rfl

@[simp]
theorem Mir.generator_drop_setBlocks (m : Mir) (b : List BasicBlockData) :
    (m.setBlocks b).generator_drop = m.generator_drop := by cases m; rfl

@[simp]
theorem Mir.basic_blocks_setDecls (m : Mir) (d : List LocalDecl) :
    (m.setDecls d).basic_blocks = m.basic_blocks := by cases m; rfl

@[simp]
theorem Mir.local_decls_setDecls (m : Mir) (d : List LocalDecl) :
    (m.setDecls d).local_decls = d := by cases m; rfl

@[simp]
theorem Mir.generator_drop_setDecls (m : Mir) (d : List LocalDecl) :
    (m.setDecls d).generator_drop = m.generator_drop := by cases m; rfl

@[simp]
theorem Mir.basic_blocks_setGenDrop (m : Mir) (g : Option Mir) :
    (m.setGenDrop g).basic_blocks = m.basic_blocks := by cases m; rfl

@[simp]
theorem Mir.local_decls_setGenDrop (m : Mir) (g : Option Mir) :
    (m.setGenDrop g).local_decls = m.local_decls := by cases m; rfl

@[simp]
theorem Mir.generator_drop_setGenDrop (m : Mir) (g : Option Mir) :
    (m.setGenDrop g).generator_drop = g := by cases m; rfl

theorem mapPlace_isYield (f : Place → Place) (t : TerminatorKind) :
    (t.mapPlace f).isYield = t.isYield := by
  cases t <;> rfl

theorem mapPlace_isAssert (f : Place → Place) (t : TerminatorKind) :
    (t.mapPlace f).isAssert = t.isAssert := by
  cases t <;> rfl

theorem mapSuccessors_isAssert (f : BasicBlockId → BasicBlockId) (t : TerminatorKind) :
    (t.mapSuccessors f).isAssert = t.isAssert := by
  cases t <;> rfl

theorem transformBlockData_fst (tv : TransformVisitor) (i : BasicBlockId)
    (d : BasicBlockData) :
    (transformBlockData tv i d).1 =
      match d.terminator with
      | .yield _ r dr =>
        { tv with suspension_points := tv.suspension_points ++
            [⟨3 + tv.suspension_points.length, r, dr, lookupSL tv.storage_liveness i⟩] }
      | _ => tv := by
  cases h : d.terminator <;> simp [transformBlockData, h]

theorem transformBlockData_snd_ret (tv : TransformVisitor) (i : BasicBlockId)
    (d : BasicBlockData) (h : d.terminator = .ret) :
    (transformBlockData tv i d).2 = superBlockData tv.remap
      ⟨retainNonRemappedStorage tv.remap d.statements ++
        [.assign (.base RETURN_PLACE) (make_state 1 (.move (.base tv.new_ret_local))),
         set_discr RETURNED], .ret, d.is_cleanup⟩ := by
  simp [transformBlockData, h]

theorem transformBlockData_snd_yield (tv : TransformVisitor) (i : BasicBlockId)
    (d : BasicBlockData) (v : Operand) (r : BasicBlockId) (dr : Option BasicBlockId)
    (h : d.terminator = .yield v r dr) :
    (transformBlockData tv i d).2 = superBlockData tv.remap
      ⟨retainNonRemappedStorage tv.remap d.statements ++
        [.assign (.base RETURN_PLACE) (make_state 0 v),
         set_discr (3 + tv.suspension_points.length)], .ret, d.is_cleanup⟩ := by
  simp [transformBlockData, h]

theorem transformBlockData_snd_other (tv : TransformVisitor) (i : BasicBlockId)
    (d : BasicBlockData) (hr : d.terminator ≠ .ret)
    (hy : d.terminator.isYield = false) :
    (transformBlockData tv i d).2 = superBlockData tv.remap
      ⟨retainNonRemappedStorage tv.remap d.statements, d.terminator,
        d.is_cleanup⟩ := by
  cases h : d.terminator <;>
    simp [transformBlockData, h] <;>
    simp [h, TerminatorKind.isYield] at hr hy

theorem transformBlockData_remap (tv : TransformVisitor) (i : BasicBlockId)
    (d : BasicBlockData) : (transformBlockData tv i d).1.remap = tv.remap := by
  rw [transformBlockData_fst]; cases d.terminator <;> rfl

theorem transformBlockData_storage (tv : TransformVisitor) (i : BasicBlockId)
    (d : BasicBlockData) :
    (transformBlockData tv i d).1.storage_liveness = tv.storage_liveness := by
  rw [transformBlockData_fst]; cases d.terminator <;> rfl

theorem transformBlockData_newret (tv : TransformVisitor) (i : BasicBlockId)
    (d : BasicBlockData) :
    (transformBlockData tv i d).1.new_ret_local = tv.new_ret_local := by
  rw [transformBlockData_fst]; cases d.terminator <;> rfl

theorem transformBlockData_discrty (tv : TransformVisitor) (i : BasicBlockId)
    (d : BasicBlockData) :
    (transformBlockData tv i d).1.discr_ty = tv.discr_ty := by
  rw [transformBlockData_fst]; cases d.terminator <;> rfl

theorem transformBlocks_fields (tv : TransformVisitor) (i : BasicBlockId)
    (bs : List BasicBlockData) :
    (transformBlocks tv i bs).1.remap = tv.remap ∧
    (transformBlocks tv i bs).1.storage_liveness = tv.storage_liveness ∧
    (transformBlocks tv i bs).1.new_ret_local = tv.new_ret_local ∧
    (transformBlocks tv i bs).1.discr_ty = tv.discr_ty := by
  induction bs generalizing tv i with
  | nil => simp [transformBlocks]
  | cons d rest ih =>
    simp only [transformBlocks]
    refine ⟨?_, ?_, ?_, ?_⟩
    · rw [(ih _ _).1]; exact transformBlockData_remap tv i d
    · rw [(ih _ _).2.1]; exact transformBlockData_storage tv i d
    · rw [(ih _ _).2.2.1]; exact transformBlockData_newret tv i d
    · rw [(ih _ _).2.2.2]; exact transformBlockData_discrty tv i d

theorem transformBlocks_points_state (tv : TransformVisitor) (i : BasicBlockId)
    (bs : List BasicBlockData) :
    ((transformBlocks tv i bs).1.suspension_points).map (fun p => p.state)
      = tv.suspension_points.map (fun p => p.state)
        ++ List.range' (3 + tv.suspension_points.length) (yieldCount bs) := by
  induction bs generalizing tv i with
  | nil => simp [transformBlocks, yieldCount]
  | cons d rest ih =>
    simp only [transformBlocks]
    rw [ih, transformBlockData_fst]
    cases ht : d.terminator <;>
      simp [ht, yieldCount, TerminatorKind.isYield, List.append_assoc]
    rw [Nat.add_comm 1 (yieldCount rest), List.range'_succ]
    rfl

theorem transformBlocks_points_targets (tv : TransformVisitor) (i : BasicBlockId)
    (bs : List BasicBlockData) :
    ((transformBlocks tv i bs).1.suspension_points).map (fun p => (p.resume, p.drop))
      = tv.suspension_points.map (fun p => (p.resume, p.drop)) ++ yieldTargets bs := by
  induction bs generalizing tv i with
  | nil => simp [transformBlocks, yieldTargets]
  | cons d rest ih =>
    simp only [transformBlocks]
    rw [ih, transformBlockData_fst]
    cases ht : d.terminator <;>
      simp [ht, yieldTargets, List.append_assoc]

/-- C2: the discriminant states assigned to suspend points form a dense run
starting at 3 with no gaps or repeats, assigned in block-iteration order
(the suspension-point list lines up with the suspend terminators in block
order), and the numbering depends only on the input CFG (any visitor state
with an empty suspension-point list yields the same numbering). -/
theorem suspend_states_dense_run (tv : TransformVisitor) (mir : Mir)
    (h : tv.suspension_points = []) :
    (((transformBlocks tv 0 mir.basic_blocks).1.suspension_points).map
        (fun p => p.state)
      = List.range' 3
          ((transformBlocks tv 0 mir.basic_blocks).1.suspension_points).length)
    ∧ (((transformBlocks tv 0 mir.basic_blocks).1.suspension_points).map
        (fun p => (p.resume, p.drop)) = yieldTargets mir.basic_blocks)
    ∧ (∀ tv2 : TransformVisitor, tv2.suspension_points = [] →
        ((transformBlocks tv2 0 mir.basic_blocks).1.suspension_points).map
            (fun p => p.state)
          = ((transformBlocks tv 0 mir.basic_blocks).1.suspension_points).map
              (fun p => p.state)) := by
  have key : ∀ tvx : TransformVisitor, tvx.suspension_points = [] →
      ((transformBlocks tvx 0 mir.basic_blocks).1.suspension_points).map
          (fun p => p.state)
        = List.range' 3 (yieldCount mir.basic_blocks) := by
    intro tvx hx
    rw [transformBlocks_points_state, hx]
    simp
  have hlen :
      ((transformBlocks tv 0 mir.basic_blocks).1.suspension_points).length
        = yieldCount mir.basic_blocks := by
    have h2 := congrArg List.length (key tv h)
    simpa using h2
  refine ⟨?_, ?_, ?_⟩
  · rw [key tv h, hlen]
  · rw [transformBlocks_points_targets, h]
    simp
  · intro tv2 h2
    rw [key tv2 h2, key tv h]

/-- Witness for C2 at a concrete two-block body with one suspend point. -/
theorem suspend_states_dense_run_witness :
    ((transformBlocks tvEx 0 mirEx.basic_blocks).1.suspension_points).map
        (fun p => p.state)
      = List.range' 3
          ((transformBlocks tvEx 0 mirEx.basic_blocks).1.suspension_points).length :=
  (suspend_states_dense_run tvEx mirEx rfl).1

theorem transformBlockData_term_not_yield (tv : TransformVisitor)
    (i : BasicBlockId) (d : BasicBlockData) :
    ((transformBlockData tv i d).2).terminator.isYield = false := by
  cases ht : d.terminator <;>
    simp [transformBlockData, ht, superBlockData, BasicBlockData.mapPlace,
      TerminatorKind.mapPlace, TerminatorKind.isYield]

theorem transformBlocks_no_yield (tv : TransformVisitor) (i : BasicBlockId)
    (bs : List BasicBlockData) :
    ∀ dout ∈ (transformBlocks tv i bs).2, dout.terminator.isYield = false := by
  induction bs generalizing tv i with
  | nil => simp [transformBlocks]
  | cons d rest ih =>
    simp only [transformBlocks, List.mem_cons]
    rintro dout (h | h)
    · subst h; exact transformBlockData_term_not_yield tv i d
    · exact ih _ _ dout h

theorem body_rewrite_aux (tv : TransformVisitor) (i : BasicBlockId)
    (bs : List BasicBlockData)
    (h0 : tv.remap.lookup RETURN_PLACE = none)
    (h1 : tv.remap.lookup self_arg = none) :
    ∀ j din, bs[j]? = some din →
      ∃ dout, (transformBlocks tv i bs).2[j]? = some dout ∧
        (din.terminator = .ret →
          ∃ pre, dout.statements = pre ++
            [.assign (.base RETURN_PLACE)
               ((make_state 1 (.move (.base tv.new_ret_local))).mapPlace
                 (rewritePlace tv.remap)),
             set_discr RETURNED] ∧ dout.terminator = .ret) ∧
        (∀ v r dr, din.terminator = .yield v r dr →
          ∃ pre, dout.statements = pre ++
            [.assign (.base RETURN_PLACE)
               ((make_state 0 v).mapPlace (rewritePlace tv.remap)),
             set_discr (3 + tv.suspension_points.length +
               yieldCount (bs.take j))] ∧
            dout.terminator = .ret) := by
  induction bs generalizing tv i with
  | nil => intro j din h; simp at h
  | cons d rest ih =>
    have h0n : tv.remap.lookup 0 = none := h0
    have h1n : tv.remap.lookup 1 = none := h1
    intro j din hj
    cases j with
    | zero =>
      simp only [List.getElem?_cons_zero, Option.some.injEq] at hj
      refine ⟨(transformBlockData tv i d).2, by simp [transformBlocks], ?_, ?_⟩
      · intro hret
        rw [← hj] at hret
        rw [transformBlockData_snd_ret tv i d hret]
        refine ⟨(retainNonRemappedStorage tv.remap d.statements).map
          (StatementKind.mapPlace (rewritePlace tv.remap)), ?_, ?_⟩
        · simp [superBlockData, BasicBlockData.mapPlace, StatementKind.mapPlace,
            set_discr, rewritePlace, h0n, h1n, RETURN_PLACE, self_arg]
        · simp [superBlockData, BasicBlockData.mapPlace, TerminatorKind.mapPlace]
      · intro v r dr hy
        rw [← hj] at hy
        rw [transformBlockData_snd_yield tv i d v r dr hy]
        refine ⟨(retainNonRemappedStorage tv.remap d.statements).map
          (StatementKind.mapPlace (rewritePlace tv.remap)), ?_, ?_⟩
        · simp [superBlockData, BasicBlockData.mapPlace, StatementKind.mapPlace,
            set_discr, rewritePlace, h0n, h1n, RETURN_PLACE, self_arg, yieldCount]
        · simp [superBlockData, BasicBlockData.mapPlace, TerminatorKind.mapPlace]
    | succ j =>
      have hjr : rest[j]? = some din := by simpa using hj
      have h0r : (transformBlockData tv i d).1.remap.lookup RETURN_PLACE = none := by
        rw [transformBlockData_remap]; exact h0
      have h1r : (transformBlockData tv i d).1.remap.lookup self_arg = none := by
        rw [transformBlockData_remap]; exact h1
      obtain ⟨dout, hout, hretc, hyc⟩ :=
        ih (transformBlockData tv i d).1 (i + 1) h0r h1r j din hjr
      rw [transformBlockData_remap] at hretc hyc
      rw [transformBlockData_newret] at hretc
      refine ⟨dout, by simpa [transformBlocks] using hout, hretc, ?_⟩
      intro v r dr hy
      obtain ⟨pre, hpre, hterm⟩ := hyc v r dr hy
      refine ⟨pre, ?_, hterm⟩
      have harith : 3 + (transformBlockData tv i d).1.suspension_points.length +
          yieldCount (rest.take j)
          = 3 + tv.suspension_points.length +
            yieldCount ((d :: rest).take (j + 1)) := by
        rw [transformBlockData_fst]
        cases ht : d.terminator <;>
          · simp [ht, yieldCount, TerminatorKind.isYield, List.take_succ_cons]
            try omega
      rw [harith] at hpre
      exact hpre

/-- C3: every `return v` terminator is rewritten to «assign the `Complete(v)`
result to the return place; set the discriminant to `RETURNED`; bare
return», and every `suspend v` terminator to «assign the `Yielded(v)` result;
set the discriminant to the next suspend state; bare return»; in every
rewritten block the result-value write precedes the discriminant write (they
are the final two statements, in that order), and after the traversal no
suspend terminator remains. -/
theorem return_yield_rewrite (tv : TransformVisitor) (i : BasicBlockId)
    (bs : List BasicBlockData)
    (h0 : tv.remap.lookup RETURN_PLACE = none)
    (h1 : tv.remap.lookup self_arg = none) :
    (∀ j din, bs[j]? = some din →
      ∃ dout, (transformBlocks tv i bs).2[j]? = some dout ∧
        (din.terminator = .ret →
          ∃ pre, dout.statements = pre ++
            [.assign (.base RETURN_PLACE)
               ((make_state 1 (.move (.base tv.new_ret_local))).mapPlace
                 (rewritePlace tv.remap)),
             set_discr RETURNED] ∧ dout.terminator = .ret) ∧
        (∀ v r dr, din.terminator = .yield v r dr →
          ∃ pre, dout.statements = pre ++
            [.assign (.base RETURN_PLACE)
               ((make_state 0 v).mapPlace (rewritePlace tv.remap)),
             set_discr (3 + tv.suspension_points.length +
               yieldCount (bs.take j))] ∧
            dout.terminator = .ret))
    ∧ (∀ dout ∈ (transformBlocks tv i bs).2, dout.terminator.isYield = false) :=
  ⟨body_rewrite_aux tv i bs h0 h1, transformBlocks_no_yield tv i bs⟩

/-- Witness for C3: the two-block body `mirEx` (one suspend, one return)
with the empty remap table. -/
theorem return_yield_rewrite_witness :
    ∃ dout, (transformBlocks tvEx 0 mirEx.basic_blocks).2[1]? = some dout ∧
      ∃ pre, dout.statements = pre ++
        [.assign (.base RETURN_PLACE)
           ((make_state 1 (.move (.base tvEx.new_ret_local))).mapPlace
             (rewritePlace tvEx.remap)),
         set_discr RETURNED] ∧ dout.terminator = .ret := by
  obtain ⟨dout, hout, hret, hyield⟩ :=
    (return_yield_rewrite tvEx 0 mirEx.basic_blocks rfl rfl).1 1
      ⟨[], .ret, false⟩ rfl
  exact ⟨dout, hout, hret rfl⟩

/-- C6 counterexample: an access to a binding *outside* the RemapTable is not
a hard-fail — with an empty table, local `5` is outside the table and the
local visitor's assertion (`assert_eq!(self.remap.get(local), None)`)
succeeds, contradicting the claim that such an access aborts. -/
theorem remap_access_counterexample :
    (([] : RemapTable).lookup 5 = none) ∧ visit_local_assert [] 5 = true := by
  constructor
  · rfl
  · rfl

/-- C6 (amended): the hard-fail of the local visitor fires exactly for
bindings that *are* in the RemapTable (a remapped local that survives to the
bare-local visitor is the compiler-internal invariant violation); an access
to a binding outside the table passes the assertion and is left untouched by
the place rewrite, while a whole-place access to a remapped binding is
rewritten to the generator-struct field access (variant index, field index,
type) recorded in the table. -/
theorem remap_access_rule (remap : RemapTable) (l : Local) :
    (visit_local_assert remap l = false ↔ (remap.lookup l).isSome = true)
    ∧ (remap.lookup l = none → rewritePlace remap (.base l) = .base l)
    ∧ (∀ ty vi idx, remap.lookup l = some (ty, vi, idx) →
        rewritePlace remap (.base l) = make_field vi idx ty) := by
  refine ⟨?_, ?_, ?_⟩
  · cases h : remap.lookup l <;> simp [visit_local_assert, h]
  · intro h; simp [rewritePlace, h]
  · intro ty vi idx h; simp [rewritePlace, h]

/-- Witness for the amended C6 at a one-entry table. -/
theorem remap_access_rule_witness :
    rewritePlace [(2, (Ty.var 5, 3, 0))] (.base 2) = make_field 3 0 (Ty.var 5) :=
  (remap_access_rule [(2, (Ty.var 5, 3, 0))] 2).2.2 (Ty.var 5) 3 0 (by decide)

theorem typeSanityOk_false_iff (live : Finset Local) (allowed upvars : List Ty)
    (n : Nat) (decls : List LocalDecl) :
    typeSanityOk live allowed upvars n decls = false ↔
      ∃ j decl, decls[j]? = some decl ∧ (n + j) ∈ live ∧
        decl.internal = false ∧ ¬decl.ty ∈ allowed ∧ ¬decl.ty ∈ upvars := by
  induction decls generalizing n with
  | nil => simp [typeSanityOk]
  | cons decl rest ih =>
    simp only [typeSanityOk]
    by_cases h1 : ¬n ∈ live ∨ decl.internal
    · rw [if_pos h1, ih]
      constructor
      · rintro ⟨j, d2, hg, hl, hi, ha, hu⟩
        refine ⟨j + 1, d2, by simpa using hg, ?_, hi, ha, hu⟩
        have he : n + 1 + j = n + (j + 1) := by omega
        rw [he] at hl; exact hl
      · rintro ⟨j, d2, hg, hl, hi, ha, hu⟩
        cases j with
        | zero =>
          simp only [List.getElem?_cons_zero, Option.some.injEq] at hg
          exfalso
          rcases h1 with h1 | h1
          · exact h1 (by simpa using hl)
          · rw [hg] at h1; rw [hi] at h1; exact Bool.noConfusion h1
        | succ j =>
          refine ⟨j, d2, by simpa using hg, ?_, hi, ha, hu⟩
          have he : n + (j + 1) = n + 1 + j := by omega
          rw [he] at hl; exact hl
    · rw [if_neg h1]
      push_neg at h1
      by_cases h2 : ¬decl.ty ∈ allowed ∧ ¬decl.ty ∈ upvars
      · rw [if_pos h2]
        constructor
        · intro _
          exact ⟨0, decl, by simp, by simpa using h1.1, by simpa using h1.2,
            h2.1, h2.2⟩
        · intro _; rfl
      · rw [if_neg h2, ih]
        constructor
        · rintro ⟨j, d2, hg, hl, hi, ha, hu⟩
          refine ⟨j + 1, d2, by simpa using hg, ?_, hi, ha, hu⟩
          have he : n + 1 + j = n + (j + 1) := by omega
          rw [he] at hl; exact hl
        · rintro ⟨j, d2, hg, hl, hi, ha, hu⟩
          cases j with
          | zero =>
            simp only [List.getElem?_cons_zero, Option.some.injEq] at hg
            exfalso
            rw [hg] at h2
            exact h2 ⟨ha, hu⟩
          | succ j =>
            refine ⟨j, d2, by simpa using hg, ?_, hi, ha, hu⟩
            have he : n + (j + 1) = n + 1 + j := by omega
            rw [he] at hl; exact hl

/-- C7: `compute_layout` hits the fatal internal-consistency failure
(`span_bug!`) exactly when some binding that is live across a suspension
point and not compiler-internal has a type that appears neither in the front
end's witness type set nor among the upvar types; internal or non-live
bindings never trigger it. -/
theorem interior_type_sanity (upvars allowed : List Ty) (movable : Bool)
    (df : DataflowResults) (mir : Mir) :
    compute_layout upvars allowed movable df mir = none ↔
      ∃ l decl, mir.local_decls[l]? = some decl ∧
        l ∈ (locals_live_across_suspend_points mir df movable).1 ∧
        decl.internal = false ∧ ¬decl.ty ∈ allowed ∧ ¬decl.ty ∈ upvars := by
  have key := typeSanityOk_false_iff
    (locals_live_across_suspend_points mir df movable).1 allowed upvars 0
    mir.local_decls
  simp only [Nat.zero_add] at key
  simp only [compute_layout]
  by_cases h : typeSanityOk (locals_live_across_suspend_points mir df movable).1
      allowed upvars 0 mir.local_decls
  · rw [if_pos h]
    constructor
    · intro hc; exact Option.noConfusion hc
    · intro hex
      rw [← key] at hex
      rw [h] at hex
      exact Bool.noConfusion hex
  · rw [if_neg h]
    simp only [true_iff]
    rw [← key]
    exact Bool.not_eq_true _ ▸ Bool.of_not_eq_true h

theorem llaspAux_set (df : DataflowResults) (movable : Bool)
    (ignored : Finset Local) (i : BasicBlockId) (set : Finset Local)
    (map : List (BasicBlockId × Finset Local)) (susp : Finset BasicBlockId)
    (bs : List BasicBlockData) :
    (llaspAux df movable ignored i set map susp bs).1
      = set ∪ ((yieldBlockIdsFrom i bs).map fun b =>
          (df.storageLiveAt b ∪ ignored) ∩
            (if movable then df.livenessOuts b
             else df.livenessOuts b ∪ df.borrowedAt b)).foldr (· ∪ ·) ∅ := by
  induction bs generalizing i set map susp with
  | nil => simp [llaspAux, yieldBlockIdsFrom]
  | cons d rest ih =>
    cases ht : d.terminator <;>
      simp [llaspAux, ht, yieldBlockIdsFrom, ih, Finset.union_assoc]

/-- C4: at every suspend terminator the per-point cross-suspend live set is
(backward may-liveness out of the block, unioned with the borrowed-before
set when the generator is immovable) intersected with (the storage-liveness
state at the point unioned with the always-live locals, i.e. those with no
storage markers); the pass's final cross-suspend live set is the union of
the per-point sets with the generator's own argument removed. -/
theorem cross_suspend_live_set (mir : Mir) (df : DataflowResults)
    (movable : Bool) :
    (locals_live_across_suspend_points mir df movable).1
      = (((yieldBlockIdsFrom 0 mir.basic_blocks).map fun b =>
            (df.livenessOuts b ∪ (if movable then ∅ else df.borrowedAt b)) ∩
              (df.storageLiveAt b ∪ storageIgnored mir)).foldr
          (· ∪ ·) ∅).erase self_arg := by
  have hpt : ∀ b : BasicBlockId,
      (df.storageLiveAt b ∪ storageIgnored mir) ∩
          (if movable then df.livenessOuts b
           else df.livenessOuts b ∪ df.borrowedAt b)
        = (df.livenessOuts b ∪ (if movable then ∅ else df.borrowedAt b)) ∩
            (df.storageLiveAt b ∪ storageIgnored mir) := by
    intro b
    cases movable <;> simp [Finset.inter_comm]
  simp only [locals_live_across_suspend_points]
  rw [llaspAux_set]
  simp only [Finset.empty_union, hpt]

theorem createCasesAux_eq (dlen : Nat) (remap : RemapTable)
    (target : SuspensionPoint → Option BasicBlockId)
    (blocks : List BasicBlockData) (pts : List SuspensionPoint) :
    createCasesAux dlen remap target blocks pts
      = (blocks ++ (filteredPoints target pts).map (mkCaseBlock dlen remap),
         casesSpec blocks.length (filteredPoints target pts)) := by
  induction pts generalizing blocks with
  | nil => simp [createCasesAux, filteredPoints, casesSpec]
  | cons p rest ih =>
    cases ht : target p with
    | none =>
      simp [createCasesAux, ht, filteredPoints, List.filterMap_cons, ih]
    | some t =>
      simp [createCasesAux, ht, filteredPoints, List.filterMap_cons, ih,
        casesSpec, mkCaseBlock, List.append_assoc]

theorem casesSpec_block (dlen : Nat) (remap : RemapTable)
    (blocks : List BasicBlockData) (fil : List (SuspensionPoint × BasicBlockId)) :
    ∀ pt ∈ fil, ∃ j, (pt.1.state, j) ∈ casesSpec blocks.length fil ∧
      (blocks ++ fil.map (mkCaseBlock dlen remap))[j]?
        = some (mkCaseBlock dlen remap pt) := by
  induction fil generalizing blocks with
  | nil => simp
  | cons pt0 rest ih =>
    intro pt hpt
    rcases List.mem_cons.1 hpt with h | h
    · subst h
      refine ⟨blocks.length, by simp [casesSpec], ?_⟩
      rw [List.getElem?_append_right (le_refl _)]
      simp
    · obtain ⟨j, hj1, hj2⟩ := ih (blocks ++ [mkCaseBlock dlen remap pt0]) pt h
      refine ⟨j, ?_, ?_⟩
      · simp only [casesSpec, List.mem_cons]
        right
        simpa using hj1
      · rw [← List.singleton_append, List.map_append, ← List.append_assoc]
        simpa using hj2

theorem caseStmts_mem (dlen : Nat) (remap : RemapTable) (p : SuspensionPoint)
    (l : Local) :
    StatementKind.storageLive l ∈ caseStmts dlen remap p
      ↔ l < dlen ∧ l ∈ p.storage_liveness ∧ (remap.lookup l).isNone = true := by
  simp only [caseStmts, List.mem_filterMap, List.mem_range]
  constructor
  · rintro ⟨i, hi, hif⟩
    by_cases hc : i ∈ p.storage_liveness ∧ (remap.lookup i).isNone = true
    · rw [if_pos hc] at hif
      simp only [Option.some.injEq, StatementKind.storageLive.injEq] at hif
      subst hif
      exact ⟨hi, hc.1, hc.2⟩
    · rw [if_neg hc] at hif
      exact absurd hif (by simp)
  · rintro ⟨hl, hm, hr⟩
    exact ⟨l, hl, by rw [if_pos ⟨hm, hr⟩]⟩

theorem mapPlace_eq_storageLive (f : Place → Place) (s : StatementKind)
    (l : Local) :
    StatementKind.mapPlace f s = .storageLive l ↔ s = .storageLive l := by
  cases s <;> simp [StatementKind.mapPlace]

theorem mapPlace_eq_storageDead (f : Place → Place) (s : StatementKind)
    (l : Local) :
    StatementKind.mapPlace f s = .storageDead l ↔ s = .storageDead l := by
  cases s <;> simp [StatementKind.mapPlace]

theorem mem_retain_storageLive (remap : RemapTable)
    (stmts : List StatementKind) (l : Local)
    (h : StatementKind.storageLive l ∈ retainNonRemappedStorage remap stmts) :
    (remap.lookup l).isNone = true := by
  rw [retainNonRemappedStorage, List.mem_filter] at h
  simpa using h.2

theorem mem_retain_storageDead (remap : RemapTable)
    (stmts : List StatementKind) (l : Local)
    (h : StatementKind.storageDead l ∈ retainNonRemappedStorage remap stmts) :
    (remap.lookup l).isNone = true := by
  rw [retainNonRemappedStorage, List.mem_filter] at h
  simpa using h.2

theorem no_remapped_storage_core (remap : RemapTable) (l : Local)
    (hl : (remap.lookup l).isSome = true) (stmts extra : List StatementKind)
    (hexL : StatementKind.storageLive l ∉ extra)
    (hexD : StatementKind.storageDead l ∉ extra) :
    StatementKind.storageLive l ∉
      (retainNonRemappedStorage remap stmts ++ extra).map
        (StatementKind.mapPlace (rewritePlace remap)) ∧
    StatementKind.storageDead l ∉
      (retainNonRemappedStorage remap stmts ++ extra).map
        (StatementKind.mapPlace (rewritePlace remap)) := by
  have hnone : ¬(remap.lookup l).isNone = true := by
    cases h : remap.lookup l
    · rw [h] at hl; exact absurd hl (by simp)
    · simp
  constructor
  · intro hmem
    rw [List.mem_map] at hmem
    obtain ⟨s0, hs0, hfs0⟩ := hmem
    rw [mapPlace_eq_storageLive] at hfs0
    subst hfs0
    rcases List.mem_append.1 hs0 with h | h
    · exact hnone (mem_retain_storageLive remap stmts l h)
    · exact hexL h
  · intro hmem
    rw [List.mem_map] at hmem
    obtain ⟨s0, hs0, hfs0⟩ := hmem
    rw [mapPlace_eq_storageDead] at hfs0
    subst hfs0
    rcases List.mem_append.1 hs0 with h | h
    · exact hnone (mem_retain_storageDead remap stmts l h)
    · exact hexD h

theorem transformBlockData_no_remapped_storage (tv : TransformVisitor)
    (i : BasicBlockId) (d : BasicBlockData) (l : Local)
    (hl : (tv.remap.lookup l).isSome = true) :
    StatementKind.storageLive l ∉ ((transformBlockData tv i d).2).statements ∧
    StatementKind.storageDead l ∉ ((transformBlockData tv i d).2).statements := by
  cases ht : d.terminator
  case ret =>
    rw [transformBlockData_snd_ret tv i d ht]
    simp only [superBlockData, BasicBlockData.mapPlace]
    exact no_remapped_storage_core tv.remap l hl d.statements _
      (by simp [set_discr]) (by simp [set_discr])
  case yield v r dr =>
    rw [transformBlockData_snd_yield tv i d v r dr ht]
    simp only [superBlockData, BasicBlockData.mapPlace]
    exact no_remapped_storage_core tv.remap l hl d.statements _
      (by simp [set_discr]) (by simp [set_discr])
  all_goals
    rw [transformBlockData_snd_other tv i d (by simp [ht])
      (by simp [ht, TerminatorKind.isYield])]
    simp only [superBlockData, BasicBlockData.mapPlace]
    have := no_remapped_storage_core tv.remap l hl d.statements []
      (by simp) (by simp)
    simpa using this

theorem transformBlocks_no_remapped_storage (tv : TransformVisitor)
    (i : BasicBlockId) (bs : List BasicBlockData) (l : Local)
    (hl : (tv.remap.lookup l).isSome = true) :
    ∀ dout ∈ (transformBlocks tv i bs).2,
      StatementKind.storageLive l ∉ dout.statements ∧
      StatementKind.storageDead l ∉ dout.statements := by
  induction bs generalizing tv i with
  | nil => simp [transformBlocks]
  | cons d rest ih =>
    simp only [transformBlocks, List.mem_cons]
    rintro dout (h | h)
    · subst h; exact transformBlockData_no_remapped_storage tv i d l hl
    · have hl2 : ((transformBlockData tv i d).1.remap.lookup l).isSome = true := by
        rw [transformBlockData_remap]; exact hl
      exact ih _ (i + 1) hl2 dout h

/-- C5: for every suspension point with a destroy target, the destroy
dispatch case jumps to the destroy target from a block whose statements are
`StorageLive` markers for exactly the bindings of the point's storage
snapshot that are not keys of the RemapTable; and remapped bindings never
receive storage markers anywhere: the rewritten body has none (they were
deleted and never re-inserted) and the generated case blocks only mark
non-remapped bindings. -/
theorem destroy_storage_markers (tv : TransformVisitor) (mir : Mir) :
    (∀ p ∈ tv.suspension_points, ∀ t, p.drop = some t →
      ∃ j, (p.state, j) ∈ (create_cases mir tv (fun point => point.drop)).2 ∧
        ((create_cases mir tv (fun point => point.drop)).1.basic_blocks)[j]?
          = some ⟨caseStmts mir.local_decls.length tv.remap p, .goto t, false⟩)
    ∧ (∀ p : SuspensionPoint, ∀ l : Local,
        StatementKind.storageLive l ∈ caseStmts mir.local_decls.length tv.remap p
          ↔ l < mir.local_decls.length ∧ l ∈ p.storage_liveness ∧
            (tv.remap.lookup l).isNone = true)
    ∧ (∀ i : BasicBlockId, ∀ l : Local, (tv.remap.lookup l).isSome = true →
        ∀ dout ∈ (transformBlocks tv i mir.basic_blocks).2,
          StatementKind.storageLive l ∉ dout.statements ∧
          StatementKind.storageDead l ∉ dout.statements) := by
  refine ⟨?_, ?_, ?_⟩
  · intro p hp t ht
    have hfil : (p, t) ∈ filteredPoints (fun point => point.drop)
        tv.suspension_points := by
      rw [filteredPoints, List.mem_filterMap]
      exact ⟨p, hp, by rw [ht]; rfl⟩
    obtain ⟨j, hj1, hj2⟩ := casesSpec_block mir.local_decls.length tv.remap
      mir.basic_blocks (filteredPoints (fun point => point.drop)
        tv.suspension_points) (p, t) hfil
    refine ⟨j, ?_, ?_⟩
    · simpa [create_cases, createCasesAux_eq] using hj1
    · simpa [create_cases, createCasesAux_eq, mkCaseBlock] using hj2
  · intro p l
    exact caseStmts_mem mir.local_decls.length tv.remap p l
  · intro i l hl
    exact transformBlocks_no_remapped_storage tv i mir.basic_blocks l hl

/-- Witness for C5: the one suspension point of `tvRemapEx` (snapshot
`{2, 3}`, local 2 remapped) against the four-local body `mirWide`; the case
block marks exactly local 3. -/
theorem destroy_storage_markers_witness :
    ∃ j, ((3 : Nat), j) ∈
        (create_cases mirWide tvRemapEx (fun point => point.drop)).2 ∧
      ((create_cases mirWide tvRemapEx (fun point => point.drop)).1.basic_blocks)[j]?
        = some ⟨caseStmts mirWide.local_decls.length tvRemapEx.remap
            ⟨3, 1, some 1, {2, 3}⟩, .goto 1, false⟩ :=
  (destroy_storage_markers tvRemapEx mirWide).1 ⟨3, 1, some 1, {2, 3}⟩
    (by simp [tvRemapEx]) 1 rfl

/-! ## Structure of the generated resume procedure -/

theorem poisonUnwinds_eq (m : Mir) :
    poisonUnwinds m = m.setBlocks (m.basic_blocks.map poisonBlock) := rfl

theorem poisonBlock_terminator (b : BasicBlockData) :
    (poisonBlock b).terminator = b.terminator := by
  cases ht : b.terminator <;> simp [poisonBlock, ht]

theorem create_cases_eq (m : Mir) (tv : TransformVisitor)
    (target : SuspensionPoint → Option BasicBlockId) :
    create_cases m tv target
      = (m.setBlocks (m.basic_blocks ++
           (filteredPoints target tv.suspension_points).map
             (mkCaseBlock m.local_decls.length tv.remap)),
         casesSpec m.basic_blocks.length
           (filteredPoints target tv.suspension_points)) := by
  simp [create_cases, createCasesAux_eq]

theorem filteredPoints_resume (pts : List SuspensionPoint) :
    filteredPoints (fun point => some point.resume) pts
      = pts.map fun p => (p, p.resume) := by
  induction pts with
  | nil => rfl
  | cons p rest ih => simp [filteredPoints, List.filterMap_cons] at ih ⊢; exact ih

theorem casesSpec_map_fst (base : Nat)
    (fil : List (SuspensionPoint × BasicBlockId)) :
    (casesSpec base fil).map Prod.fst = fil.map fun pt => pt.1.state := by
  induction fil generalizing base with
  | nil => rfl
  | cons pt rest ih => simp [casesSpec, ih]

theorem casesSpec_map_snd (base : Nat)
    (fil : List (SuspensionPoint × BasicBlockId)) :
    (casesSpec base fil).map Prod.snd = List.range' base fil.length := by
  induction fil generalizing base with
  | nil => rfl
  | cons pt rest ih => simp [casesSpec, ih, List.range'_succ]

theorem insert_switch_eq (m : Mir) (cases : List (Nat × BasicBlockId))
    (tv : TransformVisitor) (default : TerminatorKind) :
    insert_switch m cases tv default
      = (m.setDecls (m.local_decls ++ [⟨Ty.isize, true⟩])).setBlocks
          ((⟨[.assign (.base m.local_decls.length)
                (.discriminant (.base self_arg))],
             .switchInt (.move (.base m.local_decls.length)) tv.discr_ty
               (cases.map Prod.fst)
               (cases.map Prod.snd ++ [m.basic_blocks.length]),
             false⟩ :: (m.basic_blocks ++ [⟨[], default, false⟩])).map
            shiftBlock) := by
  cases m; rfl

theorem indirect_blocks (m : Mir) :
    (make_generator_state_argument_indirect m).basic_blocks
      = m.basic_blocks.map (BasicBlockData.mapPlace derefPlace) := by
  simp [make_generator_state_argument_indirect, mapMirPlaces]

theorem pinned_blocks (m : Mir) :
    (make_generator_state_argument_pinned m).basic_blocks
      = m.basic_blocks.map
          (BasicBlockData.mapPlace (pinPlace (m.localTy self_arg))) := by
  simp [make_generator_state_argument_pinned, mapMirPlaces]

theorem resumeSwitchStage_blocks (tv : TransformVisitor) (mir : Mir) :
    (resumeSwitchStage tv mir).basic_blocks
      = ((⟨[.assign (.base mir.local_decls.length)
              (.discriminant (.base self_arg))],
           .switchInt (.move (.base mir.local_decls.length)) tv.discr_ty
             (0 :: 1 :: 2 :: tv.suspension_points.map (fun p => p.state))
             (0 :: (mir.basic_blocks.length + tv.suspension_points.length)
                :: (mir.basic_blocks.length + tv.suspension_points.length + 1)
                :: (List.range' mir.basic_blocks.length
                      tv.suspension_points.length
                    ++ [mir.basic_blocks.length +
                          tv.suspension_points.length + 2])),
           false⟩
         :: (mir.basic_blocks.map poisonBlock
             ++ tv.suspension_points.map (fun p =>
                  mkCaseBlock mir.local_decls.length tv.remap (p, p.resume))
             ++ [⟨[], .assert (.constBool false) true
                    .generatorResumedAfterReturn
                    (mir.basic_blocks.length + tv.suspension_points.length)
                    none, false⟩,
                 ⟨[], .assert (.constBool false) true
                    .generatorResumedAfterPanic
                    (mir.basic_blocks.length + tv.suspension_points.length + 1)
                    none, false⟩,
                 ⟨[], .unreachable, false⟩])).map shiftBlock) := by
  simp only [resumeSwitchStage, poisonUnwinds_eq, create_cases_eq,
    insert_panic_block, insert_term_block, filteredPoints_resume]
  rw [insert_switch_eq]
  simp only [Mir.basic_blocks_setBlocks, Mir.local_decls_setBlocks,
    Mir.basic_blocks_setDecls, Mir.local_decls_setDecls,
    casesSpec_map_fst, casesSpec_map_snd,
    List.map_map, List.map_append, List.map_cons, List.map_nil,
    List.length_append, List.length_map]
  simp [Function.comp_def, List.append_assoc, UNRESUMED, RETURNED, POISONED,
    Nat.add_assoc]

theorem resume_function_blocks (tv : TransformVisitor) (mir : Mir) :
      (create_generator_resume_function tv mir).basic_blocks
        = ((⟨[.assign (.base mir.local_decls.length)
                (.discriminant (.base self_arg))],
             .switchInt (.move (.base mir.local_decls.length)) tv.discr_ty
               (0 :: 1 :: 2 :: tv.suspension_points.map (fun p => p.state))
               (0 :: (mir.basic_blocks.length + tv.suspension_points.length)
                  :: (mir.basic_blocks.length + tv.suspension_points.length + 1)
                  :: (List.range' mir.basic_blocks.length
                        tv.suspension_points.length
                      ++ [mir.basic_blocks.length +
                            tv.suspension_points.length + 2])),
             false⟩
           :: (mir.basic_blocks.map poisonBlock
               ++ tv.suspension_points.map (fun p =>
                    mkCaseBlock mir.local_decls.length tv.remap (p, p.resume))
               ++ [⟨[], .assert (.constBool false) true
                      .generatorResumedAfterReturn
                      (mir.basic_blocks.length + tv.suspension_points.length)
                      none, false⟩,
                   ⟨[], .assert (.constBool false) true
                      .generatorResumedAfterPanic
                      (mir.basic_blocks.length + tv.suspension_points.length + 1)
                      none, false⟩,
                   ⟨[], .unreachable, false⟩])).map
            (fun b => ((shiftBlock b).mapPlace derefPlace).mapPlace
              (pinPlace (resumePinTy tv mir)))) := by
  simp only [create_generator_resume_function, resumePinTy]
  rw [pinned_blocks, indirect_blocks, resumeSwitchStage_blocks]
  simp only [List.map_map]
  rfl

theorem caseStmts_mapPlace (f : Place → Place) (dlen : Nat)
    (remap : RemapTable) (p : SuspensionPoint) :
    (caseStmts dlen remap p).map (StatementKind.mapPlace f)
      = caseStmts dlen remap p := by
  have h : (fun i => (if i ∈ p.storage_liveness ∧ (remap.lookup i).isNone then
        some (StatementKind.storageLive i) else none).map
          (StatementKind.mapPlace f))
      = (fun i => if i ∈ p.storage_liveness ∧ (remap.lookup i).isNone then
          some (StatementKind.storageLive i) else none) := by
    funext i
    by_cases hc : i ∈ p.storage_liveness ∧ (remap.lookup i).isNone <;>
      simp [hc, StatementKind.mapPlace]
  simp only [caseStmts, List.map_filterMap]
  rw [h]

theorem range'_map_succ (n k : Nat) :
    (List.range' n k).map (· + 1) = List.range' (n + 1) k := by
  have h := List.map_add_range' 1 n k 1
  simpa [Nat.add_comm] using h

/-- C1: in the generated resume procedure the entry block switches on the
discriminant with values `[0, 1, 2, 3, …, 3+k-1]`; value 0 targets the
original entry block (now at index 1, the image of input block 0 under the
poison/renumber/adapter pipeline); value 1 targets the generated panic block
carrying the resumed-after-return message; value 2 targets the generated
panic block carrying the resumed-after-panic message; value `3+i` targets a
block jumping to suspension point `i`'s (renumbered) resume target; and the
only `Assert` terminators the construction adds are those two panic blocks
(the assert map of the output is the input's asserts plus exactly the two,
reached only via the dispatch arms for states 1 and 2). -/
theorem resume_dispatch (tv : TransformVisitor) (mir : Mir)
    (hstates : tv.suspension_points.map (fun p => p.state)
      = List.range' 3 tv.suspension_points.length) :
    (∃ stp op,
      (create_generator_resume_function tv mir).basic_blocks[0]?
        = some ⟨stp,
            .switchInt op tv.discr_ty
              (0 :: 1 :: 2 :: List.range' 3 tv.suspension_points.length)
              (1 :: (mir.basic_blocks.length + tv.suspension_points.length + 1)
                 :: (mir.basic_blocks.length + tv.suspension_points.length + 2)
                 :: (List.range' (mir.basic_blocks.length + 1)
                       tv.suspension_points.length
                     ++ [mir.basic_blocks.length +
                           tv.suspension_points.length + 3])),
            false⟩)
    ∧ ((create_generator_resume_function tv mir).basic_blocks[
          mir.basic_blocks.length + tv.suspension_points.length + 1]?
        = some ⟨[], .assert (.constBool false) true .generatorResumedAfterReturn
            (mir.basic_blocks.length + tv.suspension_points.length + 1) none,
            false⟩)
    ∧ ((create_generator_resume_function tv mir).basic_blocks[
          mir.basic_blocks.length + tv.suspension_points.length + 2]?
        = some ⟨[], .assert (.constBool false) true .generatorResumedAfterPanic
            (mir.basic_blocks.length + tv.suspension_points.length + 2) none,
            false⟩)
    ∧ (∀ j, j < mir.basic_blocks.length →
        (create_generator_resume_function tv mir).basic_blocks[1 + j]?
          = (mir.basic_blocks.map (resumeBodyImage (resumePinTy tv mir)))[j]?)
    ∧ (∀ i p, tv.suspension_points[i]? = some p →
        p.state = 3 + i ∧
        (create_generator_resume_function tv mir).basic_blocks[
            mir.basic_blocks.length + 1 + i]?
          = some ⟨caseStmts mir.local_decls.length tv.remap p,
              .goto (p.resume + 1), false⟩)
    ∧ ((create_generator_resume_function tv mir).basic_blocks.map
          (fun b => b.terminator.isAssert)
        = false :: (mir.basic_blocks.map (fun b => b.terminator.isAssert)
            ++ List.replicate tv.suspension_points.length false
            ++ [true, true, false])) := by
  have hblocks := resume_function_blocks tv mir
  refine ⟨?_, ?_, ?_, ?_, ?_, ?_⟩
  · refine ⟨[StatementKind.mapPlace (pinPlace (resumePinTy tv mir))
        (StatementKind.mapPlace derefPlace
          (.assign (.base mir.local_decls.length)
            (.discriminant (.base self_arg))))],
      Operand.mapPlace (pinPlace (resumePinTy tv mir))
        (Operand.mapPlace derefPlace (.move (.base mir.local_decls.length))),
      ?_⟩
    rw [hblocks]
    simp only [List.map_cons, List.getElem?_cons_zero, Option.some.injEq]
    simp [shiftBlock, BasicBlockData.mapPlace, TerminatorKind.mapPlace,
      TerminatorKind.mapSuccessors, hstates, range'_map_succ, Nat.add_assoc]
  · rw [hblocks]
    simp only [List.map_cons, List.map_append]
    rw [List.getElem?_cons_succ, List.getElem?_append_right (by simp)]
    simp [shiftBlock, BasicBlockData.mapPlace, TerminatorKind.mapPlace,
      TerminatorKind.mapSuccessors, Operand.mapPlace, Nat.add_assoc]
  · rw [hblocks]
    simp only [List.map_cons, List.map_append]
    have hidx : mir.basic_blocks.length + tv.suspension_points.length + 2
        = (mir.basic_blocks.length + tv.suspension_points.length + 1) + 1 := by
      omega
    rw [hidx, List.getElem?_cons_succ, List.getElem?_append_right (by simp)]
    simp [shiftBlock, BasicBlockData.mapPlace, TerminatorKind.mapPlace,
      TerminatorKind.mapSuccessors, Operand.mapPlace, Nat.add_assoc]
    rw [show mir.basic_blocks.length + (tv.suspension_points.length + 1) -
        (mir.basic_blocks.length + tv.suspension_points.length) = 1 by omega]
    rfl
  · intro j hj
    rw [hblocks]
    simp only [List.map_cons, List.map_append]
    have hidx : 1 + j = j + 1 := by omega
    rw [hidx, List.getElem?_cons_succ]
    rw [List.getElem?_append_left
        (by simp only [List.length_append, List.length_map]; omega),
      List.getElem?_append_left (by simp only [List.length_map]; omega)]
    simp only [List.getElem?_map, Option.map_map, resumeBodyImage]
    rfl
  · intro i p hp
    have hik : i < tv.suspension_points.length := by
      by_contra hc
      rw [List.getElem?_eq_none (by omega)] at hp
      exact Option.noConfusion hp
    constructor
    · have h1 : (tv.suspension_points.map (fun p => p.state))[i]?
          = some p.state := by
        rw [List.getElem?_map, hp]; rfl
      rw [hstates] at h1
      have h2 : (List.range' 3 tv.suspension_points.length)[i]?
          = some (3 + i) := by
        rw [List.getElem?_eq_getElem (by simpa using hik)]
        simp [List.getElem_range'_1]
      exact Option.some.inj (h1.symm.trans h2)
    · rw [hblocks]
      simp only [List.map_cons, List.map_append]
      have hidx : mir.basic_blocks.length + 1 + i
          = (mir.basic_blocks.length + i) + 1 := by omega
      rw [hidx, List.getElem?_cons_succ]
      rw [List.getElem?_append_left (by simp [hik])]
      rw [List.getElem?_append_right (by simp)]
      simp only [List.length_map]
      have hsub : mir.basic_blocks.length + i - mir.basic_blocks.length = i := by
        omega
      rw [hsub]
      simp only [List.getElem?_map, hp, Option.map_some]
      simp [mkCaseBlock, shiftBlock, BasicBlockData.mapPlace,
        TerminatorKind.mapSuccessors, TerminatorKind.mapPlace,
        caseStmts_mapPlace]
      rw [← List.map_map, caseStmts_mapPlace, caseStmts_mapPlace]
  · rw [hblocks]
    simp only [List.map_map]
    have hterm : ∀ b ∈ ((⟨[.assign (.base mir.local_decls.length)
              (.discriminant (.base self_arg))],
           .switchInt (.move (.base mir.local_decls.length)) tv.discr_ty
             (0 :: 1 :: 2 :: tv.suspension_points.map (fun p => p.state))
             (0 :: (mir.basic_blocks.length + tv.suspension_points.length)
                :: (mir.basic_blocks.length + tv.suspension_points.length + 1)
                :: (List.range' mir.basic_blocks.length
                      tv.suspension_points.length
                    ++ [mir.basic_blocks.length +
                          tv.suspension_points.length + 2])),
           false⟩
         :: (mir.basic_blocks.map poisonBlock
             ++ tv.suspension_points.map (fun p =>
                  mkCaseBlock mir.local_decls.length tv.remap (p, p.resume))
             ++ [⟨[], .assert (.constBool false) true
                    .generatorResumedAfterReturn
                    (mir.basic_blocks.length + tv.suspension_points.length)
                    none, false⟩,
                 ⟨[], .assert (.constBool false) true
                    .generatorResumedAfterPanic
                    (mir.basic_blocks.length + tv.suspension_points.length + 1)
                    none, false⟩,
                 ⟨[], .unreachable, false⟩])) : List BasicBlockData),
        ((fun b => b.terminator.isAssert) ∘ fun b =>
          BasicBlockData.mapPlace (pinPlace (resumePinTy tv mir))
            (BasicBlockData.mapPlace derefPlace (shiftBlock b))) b
        = b.terminator.isAssert := by
      intro b _
      simp [Function.comp, BasicBlockData.mapPlace, mapPlace_isAssert,
        shiftBlock, mapSuccessors_isAssert]
    rw [List.map_congr_left hterm]
    simp only [List.map_cons, List.map_append, List.map_map]
    have hb : ∀ b ∈ mir.basic_blocks,
        ((fun (b : BasicBlockData) => b.terminator.isAssert) ∘ poisonBlock) b
          = b.terminator.isAssert := by
      intro b _
      simp [Function.comp, poisonBlock_terminator]
    have hc : ∀ p ∈ tv.suspension_points,
        ((fun (b : BasicBlockData) => b.terminator.isAssert) ∘ fun p =>
          mkCaseBlock mir.local_decls.length tv.remap (p, p.resume)) p
          = false := by
      intro p _
      simp [Function.comp, mkCaseBlock, TerminatorKind.isAssert]
    rw [List.map_congr_left hb, List.map_congr_left hc, List.map_const']
    simp [TerminatorKind.isAssert]

/-- Witness for C1: the returned-state dispatch target of the resume
procedure built from `mirEx` with one suspension point is the generated
panic block carrying the resumed-after-return message. -/
theorem resume_dispatch_witness :
    (create_generator_resume_function tvRemapEx mirEx).basic_blocks[
        mirEx.basic_blocks.length + tvRemapEx.suspension_points.length + 1]?
      = some ⟨[], .assert (.constBool false) true .generatorResumedAfterReturn
          (mirEx.basic_blocks.length + tvRemapEx.suspension_points.length + 1)
          none, false⟩ :=
  (resume_dispatch tvRemapEx mirEx (by decide)).2.1

theorem mapPlace_eq_resume (f : Place → Place) (t : TerminatorKind) :
    t.mapPlace f = .resume ↔ t = .resume := by
  cases t <;> simp [TerminatorKind.mapPlace]

theorem mapSuccessors_eq_resume (f : BasicBlockId → BasicBlockId)
    (t : TerminatorKind) :
    t.mapSuccessors f = .resume ↔ t = .resume := by
  cases t <;> simp [TerminatorKind.mapSuccessors]

/-- C8: in the generated resume procedure, every block terminated by the
unwind-propagation terminator ends with a statement setting the generator's
discriminant to `POISONED`, so an unwound state machine dispatches to the
poisoned arm on any later resume. -/
theorem poison_before_unwind (tv : TransformVisitor) (mir : Mir) :
    ∀ b ∈ (create_generator_resume_function tv mir).basic_blocks,
      b.terminator = .resume →
      ∃ p : Place, b.statements.getLast? = some (.setDiscriminant p POISONED) ∧
        p.baseLocal = self_arg := by
  intro b hb hres
  rw [resume_function_blocks] at hb
  rw [List.mem_map] at hb
  obtain ⟨b0, hb0, rfl⟩ := hb
  simp only [BasicBlockData.mapPlace, mapPlace_eq_resume, shiftBlock,
    mapSuccessors_eq_resume] at hres
  rcases List.mem_cons.1 hb0 with h | h
  · rw [h] at hres
    exact absurd hres (by simp)
  rcases List.mem_append.1 h with h | h
  · rcases List.mem_append.1 h with h | h
    · obtain ⟨b1, hb1, rfl⟩ := List.mem_map.1 h
      rw [poisonBlock_terminator] at hres
      refine ⟨pinPlace (resumePinTy tv mir) (derefPlace (.base self_arg)),
        ?_, ?_⟩
      · simp [poisonBlock, hres, shiftBlock, BasicBlockData.mapPlace,
          List.map_append, set_discr, StatementKind.mapPlace]
      · simp [Place.baseLocal, pinPlace, derefPlace, self_arg]
    · obtain ⟨p, hp, rfl⟩ := List.mem_map.1 h
      exact absurd hres (by simp [mkCaseBlock])
  · simp only [List.mem_cons, List.not_mem_nil, or_false] at h
    rcases h with h | h | h
    · rw [h] at hres; exact absurd hres (by simp)
    · rw [h] at hres; exact absurd hres (by simp)
    · rw [h] at hres; exact absurd hres (by simp)

/-- Witness for C8: the unwind block of `mirUnwind` in the finished resume
procedure ends with the poison write. -/
theorem poison_before_unwind_witness :
    ∃ p : Place,
      (⟨[.setDiscriminant
           (.proj (.proj (.base 1) (.field 0 (.ref .gen))) .deref) POISONED],
        .resume, true⟩ : BasicBlockData).statements.getLast?
        = some (.setDiscriminant p POISONED) ∧ p.baseLocal = self_arg :=
  poison_before_unwind tvEx mirUnwind
    ⟨[.setDiscriminant
        (.proj (.proj (.base 1) (.field 0 (.ref .gen))) .deref) POISONED],
      .resume, true⟩ (by decide) rfl

theorem yieldBlockIdsFrom_eq_nil (i : BasicBlockId) (bs : List BasicBlockData)
    (h : ∀ d ∈ bs, d.terminator.isYield = false) :
    yieldBlockIdsFrom i bs = [] := by
  induction bs generalizing i with
  | nil => rfl
  | cons d rest ih =>
    have hd := h d (by simp)
    cases ht : d.terminator <;>
      simp [yieldBlockIdsFrom, ht] <;>
      first
      | exact ih (i + 1) (fun x hx => h x (by simp [hx]))
      | simp [ht, TerminatorKind.isYield] at hd

theorem yieldCount_eq_zero (bs : List BasicBlockData)
    (h : ∀ d ∈ bs, d.terminator.isYield = false) : yieldCount bs = 0 := by
  induction bs with
  | nil => rfl
  | cons d rest ih =>
    have hd := h d (by simp)
    simp [yieldCount, hd]
    exact ih (fun x hx => h x (by simp [hx]))

theorem typeSanityOk_empty (allowed upvars : List Ty) (n : Nat)
    (decls : List LocalDecl) :
    typeSanityOk ∅ allowed upvars n decls = true := by
  induction decls generalizing n with
  | nil => rfl
  | cons decl rest ih => simp [typeSanityOk, ih]

/-- C9 counterexample: `mirRet` has zero suspend terminators, yet the
synthesized resume dispatch is not «a single default»: it still carries the
three reserved-state cases 0, 1 and 2. -/
theorem no_suspend_counterexample :
    (∀ d ∈ mirRet.basic_blocks, d.terminator.isYield = false)
    ∧ (∃ stp op ts,
        (create_generator_resume_function tvEx mirRet).basic_blocks[0]?
          = some ⟨stp, .switchInt op tvEx.discr_ty [0, 1, 2] ts, false⟩)
    ∧ ([0, 1, 2] : List Nat) ≠ [] := by
  refine ⟨by decide,
    ⟨[.assign (.base 2)
        (.discriminant (.proj (.proj (.base 1) (.field 0 (.ref .gen))) .deref))],
      .move (.base 2), [1, 2, 3, 4], ?_⟩, by decide⟩
  rfl

/-- C9 (amended): for every input CFG with zero suspend terminators, the
RemapTable has no entries and no suspend-point dispatch cases exist: the
resume dispatch is exactly the three reserved-state cases (unresumed entry,
returned panic, poisoned panic) plus the default. -/
theorem no_suspend_noop (upvars allowed : List Ty) (movable : Bool)
    (df : DataflowResults) (mir : Mir) (tv : TransformVisitor)
    (hny : ∀ d ∈ mir.basic_blocks, d.terminator.isYield = false)
    (hpts : tv.suspension_points = []) :
    (∃ out, compute_layout upvars allowed movable df mir = some out ∧
      out.1.1 = [])
    ∧ (transformBlocks tv 0 mir.basic_blocks).1.suspension_points = []
    ∧ (∃ stp op,
        (create_generator_resume_function tv mir).basic_blocks[0]?
          = some ⟨stp, .switchInt op tv.discr_ty [0, 1, 2]
              [1, mir.basic_blocks.length + 1, mir.basic_blocks.length + 2,
               mir.basic_blocks.length + 3], false⟩) := by
  have hlive : (locals_live_across_suspend_points mir df movable).1 = ∅ := by
    simp only [locals_live_across_suspend_points]
    rw [llaspAux_set, yieldBlockIdsFrom_eq_nil 0 _ hny]
    simp
  refine ⟨?_, ?_, ?_⟩
  · simp only [compute_layout]
    rw [hlive, if_pos (typeSanityOk_empty allowed upvars 0 mir.local_decls)]
    refine ⟨_, rfl, ?_⟩
    simp
  · have h1 := transformBlocks_points_state tv 0 mir.basic_blocks
    rw [hpts, yieldCount_eq_zero mir.basic_blocks hny] at h1
    simpa using h1
  · have hblocks := resume_function_blocks tv mir
    refine ⟨[StatementKind.mapPlace (pinPlace (resumePinTy tv mir))
        (StatementKind.mapPlace derefPlace
          (.assign (.base mir.local_decls.length)
            (.discriminant (.base self_arg))))],
      Operand.mapPlace (pinPlace (resumePinTy tv mir))
        (Operand.mapPlace derefPlace (.move (.base mir.local_decls.length))),
      ?_⟩
    rw [hblocks]
    simp only [List.map_cons, List.getElem?_cons_zero, Option.some.injEq]
    simp [shiftBlock, BasicBlockData.mapPlace, TerminatorKind.mapPlace,
      TerminatorKind.mapSuccessors, hpts, Nat.add_assoc]

/-- Witness for the amended C9 at the yield-free body `mirRet`. -/
theorem no_suspend_noop_witness :
    ∃ out, compute_layout [] [] true
        ⟨fun _ => ∅, fun _ => ∅, fun _ => ∅⟩ mirRet = some out ∧
      out.1.1 = [] :=
  (no_suspend_noop [] [] true ⟨fun _ => ∅, fun _ => ∅, fun _ => ∅⟩ mirRet tvEx
    (by decide) rfl).1

/-! ## Independence of the resume and destroy procedures -/

theorem create_generator_resume_function_gendrop (tv : TransformVisitor)
    (m : Mir) :
    (create_generator_resume_function tv m).generator_drop
      = m.generator_drop := by
  cases m; rfl

theorem create_generator_resume_function_setGenDrop (tv : TransformVisitor)
    (m : Mir) (d : Option Mir) :
    create_generator_resume_function tv (m.setGenDrop d)
      = (create_generator_resume_function tv m).setGenDrop d := by
  cases m; rfl

theorem create_generator_drop_shim_setGenDrop (tv : TransformVisitor)
    (g : Ty) (m : Mir) (dc : BasicBlockId) (d : Option Mir) :
    create_generator_drop_shim tv g (m.setGenDrop d) dc
      = (create_generator_drop_shim tv g m dc).setGenDrop d := by
  cases m; rfl

/-- C10: after the single structural copy that produces the destroy shim,
the two procedures are independent.  Finishing the resume procedure never
touches the attached destroy procedure (`generator_drop` is preserved, and
the resume body does not depend on what is attached); conversely the destroy
shim's body does not depend on the `generator_drop` slot of the body it was
cloned from; and in `run_pass` the attached artifact is exactly a
snapshot-derived shim. -/
theorem drop_shim_independence (df : DataflowResults)
    (upvars allowed : List Ty) (movable : Bool) (ret_ty discr_ty : Ty)
    (elabDrops : Mir → Mir) (mir : Mir) :
    (∀ (tv : TransformVisitor) (m : Mir),
      (create_generator_resume_function tv m).generator_drop
        = m.generator_drop)
    ∧ (∀ (tv : TransformVisitor) (m : Mir) (d dd : Option Mir),
        (create_generator_resume_function tv (m.setGenDrop d)).basic_blocks
          = (create_generator_resume_function tv (m.setGenDrop dd)).basic_blocks
        ∧ (create_generator_resume_function tv (m.setGenDrop d)).local_decls
          = (create_generator_resume_function tv (m.setGenDrop dd)).local_decls)
    ∧ (∀ (tv : TransformVisitor) (g : Ty) (m : Mir) (dc : BasicBlockId)
          (d dd : Option Mir),
        (create_generator_drop_shim tv g (m.setGenDrop d) dc).basic_blocks
          = (create_generator_drop_shim tv g (m.setGenDrop dd) dc).basic_blocks
        ∧ (create_generator_drop_shim tv g (m.setGenDrop d) dc).local_decls
          = (create_generator_drop_shim tv g (m.setGenDrop dd) dc).local_decls)
    ∧ (∀ out, run_pass df upvars allowed movable ret_ty discr_ty elabDrops mir
          = some out →
        ∃ (tv : TransformVisitor) (g : Ty) (m : Mir) (dc : BasicBlockId),
          out.generator_drop = some (create_generator_drop_shim tv g m dc)) := by
  refine ⟨create_generator_resume_function_gendrop, ?_, ?_, ?_⟩
  · intro tv m d dd
    rw [create_generator_resume_function_setGenDrop,
      create_generator_resume_function_setGenDrop]
    simp
  · intro tv g m dc d dd
    rw [create_generator_drop_shim_setGenDrop,
      create_generator_drop_shim_setGenDrop]
    simp
  · intro out hout
    simp only [run_pass] at hout
    by_cases hg : mir.generator_drop.isSome
    · rw [if_pos hg] at hout
      exact absurd hout (by simp)
    · rw [if_neg hg] at hout
      rcases hcl : compute_layout upvars allowed movable df
          (replace_result_variable ret_ty mir).1 with _ | res
      · rw [hcl] at hout
        exact absurd hout (by simp)
      · obtain ⟨⟨remap, layout, sl⟩, m2⟩ := res
        rw [hcl] at hout
        simp only [Option.some.injEq] at hout
        refine ⟨(transformMir ⟨discr_ty, remap, sl, [],
            (replace_result_variable ret_ty mir).2⟩ m2).1,
          mir.localTy self_arg,
          elabDrops (insert_clean_drop (transformMir ⟨discr_ty, remap, sl, [],
            (replace_result_variable ret_ty mir).2⟩ m2).2).1,
          (insert_clean_drop (transformMir ⟨discr_ty, remap, sl, [],
            (replace_result_variable ret_ty mir).2⟩ m2).2).2, ?_⟩
        rw [← hout, create_generator_resume_function_gendrop]
        simp

/-- Witness for C10: resume finishing preserves the attached destroy shim on
a concrete body. -/
theorem drop_shim_independence_witness :
    (create_generator_resume_function tvEx mirEx).generator_drop
      = mirEx.generator_drop :=
  (drop_shim_independence ⟨fun _ => ∅, fun _ => ∅, fun _ => ∅⟩ [] [] true
    Ty.genState Ty.isize id mirEx).1 tvEx mirEx

end GeneratorTransform
